import Mathlib

/-!
Shallow embedding of the DSJ task orchestration engine, translated from
src/models.py, src/task_manager.py and src/api.py, together with theorems
settling the behavioural claims about the Batch Scheduler, Retry
Coordinator, Lifecycle State Machine and Progress Publisher.

Modelling conventions:
* database rows are plain structures, a task state is the Task row plus its
  TaskDetail rows; floats (balance columns) are modelled as integers, since
  the engine only ever adds and subtracts them;
* the external Work Item Executor is an oracle: each invocation either
  returns a result dict or raises, captured by `ExecBehavior`;
* Python `dict.get(key, default)` on the executor result dict is modelled by
  `Option.getD` (a missing key is `none`);
* the in-memory cancellation set of TaskManager is consulted at numbered
  check points; `cancelAt = some n` means the membership test first returns
  true at check `n` (membership is monotone while a run is in flight);
* HTTP 4xx rejections of the api endpoints leave the store untouched and are
  modelled as the identity on the state.
-/

namespace DSJ

/-- Enumeration models.TaskStatus. -/
inductive TaskStatus
  | pending
  | running
  | completed
  | failed
deriving DecidableEq

/-- Enumeration models.ResultStatus. -/
inductive ResultStatus
  | pending
  | running
  | success
  | failed
deriving DecidableEq

/-- Row of models.TaskDetail (the WorkItem): id, account_code, balance,
status, result_message, screenshot_path. -/
structure TaskDetail where
  id : Nat
  account_code : String
  balance : Option Int
  status : ResultStatus
  result_message : Option String
  screenshot_path : Option String
deriving DecidableEq

/-- Row of models.Task, restricted to the state-relevant columns. -/
structure Task where
  status : TaskStatus
  total_accounts : Nat
  success_count : Int
  failed_count : Int
  total_balance : Int
deriving DecidableEq

/-- One Task row together with its TaskDetail rows (insertion order). -/
structure TaskState where
  task : Task
  details : List TaskDetail
deriving DecidableEq

/-- Result dict produced by automation_runner.run_automation_for_account
(keys success, message, balance, screenshot, error, failed_step). -/
structure ExecResult where
  success : Bool
  message : Option String
  balance : Option Int
  screenshot : Option String
  error : Option String
  failed_step : Option String
deriving DecidableEq

/-- One executor invocation, as seen by the orchestration code: it either
returns a result dict or raises an exception carrying a message. -/
inductive ExecBehavior
  | ok (r : ExecResult)
  | raises (msg : String)

/-- Table STEP_DESCRIPTIONS of task_manager.py. -/
def STEP_DESCRIPTIONS : List (String × String) :=
  [("go_to_login", "Truy cập trang đăng nhập"),
   ("enter_email", "Nhập email"),
   ("enter_password", "Nhập mật khẩu"),
   ("click_login", "Nhấn nút đăng nhập"),
   ("verify_login", "Xác nhận đăng nhập thành công"),
   ("go_to_transaction", "Truy cập trang giao dịch"),
   ("click_invited_me", "Nhấn 'invited me'"),
   ("enter_code_confirm", "Nhập mã và xác nhận"),
   ("get_balance", "Lấy số dư tài khoản")]

/-- Single-quote character, kept out of string literals. -/
def squote : String := (Char.ofNat 39).toString

/-- Function get_error_message of task_manager.py: combine the failing step
description (falling back to the raw step name) with the raw error. -/
def get_error_message (r : ExecResult) : String :=
  let error := r.error.getD "Lỗi không xác định"
  match r.failed_step with
  | some fs =>
      let step_desc := (STEP_DESCRIPTIONS.lookup fs).getD fs
      "Lỗi tại bước " ++ squote ++ step_desc ++ squote ++ ": " ++ error
  | none => error

/-- Method TaskManager._process_single_account: run the executor for one
account, converting a raised exception into a failure result dict. -/
def processSingleAccount (b : ExecBehavior) : ExecResult :=
  match b with
  | .ok r => r
  | .raises e =>
      { success := false, message := none, balance := none, screenshot := none,
        error := some ("Exception during processing: " ++ e), failed_step := none }

/-- Overwrite-if-given: models the `if arg is not None` guards of
TaskManager._update_detail_status. -/
def setIfGiven {α : Type} (new old : Option α) : Option α :=
  match new with
  | some v => some v
  | none => old

/-- Method TaskManager._update_detail_status: always writes the status, and
writes each remaining field only when the argument carries a value. -/
def updateDetailStatus (d : TaskDetail) (st : ResultStatus)
    (result_message : Option String) (balance : Option Int)
    (screenshot_path : Option String) : TaskDetail :=
  { d with
    status := st
    result_message := setIfGiven result_message d.result_message
    balance := setIfGiven balance d.balance
    screenshot_path := setIfGiven screenshot_path d.screenshot_path }

/-- Lookup of a TaskDetail row by primary key (first match). -/
def findDetail : List TaskDetail → Nat → Option TaskDetail
  | [], _ => none
  | d :: rest, i => if d.id = i then some d else findDetail rest i

/-- Read-modify-write of the TaskDetail row with id `i` (the ORM mutates the
live row object; absent ids leave the table unchanged). -/
def updateById (details : List TaskDetail) (i : Nat)
    (f : TaskDetail → TaskDetail) : List TaskDetail :=
  details.map fun d => if d.id = i then f d else d

/-- Python truthiness of an optional numeric balance: None and 0 are falsy
(`if detail.balance:` / `if result.get("balance"):`). -/
def balTruthy : Option Int → Bool
  | some v => v != 0
  | none => false

/-- Endpoint create_task of api.py, state part: a new Task in PENDING with
zeroed counters, one PENDING TaskDetail per selected account, ids 0,1,…. -/
def create_task (accountCodes : List String) : TaskState :=
  { task := { status := TaskStatus.pending, total_accounts := accountCodes.length,
              success_count := 0, failed_count := 0, total_balance := 0 },
    details := (accountCodes.enum).map fun p =>
      { id := p.1, account_code := p.2, balance := none,
        status := ResultStatus.pending, result_message := none, screenshot_path := none } }

/-- Startup recovery (api.startup_event) applied to one Task: tasks found
RUNNING are flipped to FAILED, their RUNNING details are flipped to FAILED
with a "process restarted" message and failed_count is incremented once per
such detail; tasks in any other status are not touched at all. -/
def recoverTask (t : TaskState) : TaskState :=
  if t.task.status = TaskStatus.running then
    { task := { t.task with
        status := TaskStatus.failed,
        failed_count := t.task.failed_count +
          ((t.details.filter fun d => d.status == ResultStatus.running).length : Int) },
      details := t.details.map fun d =>
        if d.status == ResultStatus.running then
          { d with status := ResultStatus.failed,
                   result_message := some "Server bị crash khi đang chạy" }
        else d }
  else t

/-- Startup recovery sweep (api.startup_event) over the whole store: the
query selects exactly the tasks whose status is RUNNING; every other task is
left as it is. -/
def startup_event (db : List TaskState) : List TaskState :=
  db.map recoverTask

/-- Endpoint retry_task_detail of api.py (manual single-item retry), the
synchronous state mutation performed by the request before the background
re-run is scheduled: rejected (no mutation) when the task is RUNNING, the
detail is unknown, or the detail is neither FAILED nor PENDING; otherwise
failed_count is decremented clamped at zero when the detail was FAILED, and
the detail is reset to PENDING with message, balance and screenshot cleared. -/
def retry_task_detail (s : TaskState) (detail_id : Nat) : TaskState :=
  if s.task.status = TaskStatus.running then s
  else
    match findDetail s.details detail_id with
    | none => s
    | some d =>
      if d.status = ResultStatus.failed ∨ d.status = ResultStatus.pending then
        let task1 :=
          if d.status = ResultStatus.failed then
            { s.task with failed_count := max 0 (s.task.failed_count - 1) }
          else s.task
        { task := task1,
          details := updateById s.details detail_id fun cur =>
            { cur with status := ResultStatus.pending, result_message := none,
                       balance := none, screenshot_path := none } }
      else s

/-- Method TaskManager.retry_single_detail (the background re-run behind the
manual retry endpoint): look the detail and its account up, remember whether
it was FAILED and its old balance, flip it to RUNNING, run the executor, and
apply the outcome; counters move only when the detail was FAILED at entry
and the re-run succeeded. -/
def retry_single_detail (accounts : List String) (outcome : ExecBehavior)
    (s : TaskState) (detail_id : Nat) : TaskState :=
  match findDetail s.details detail_id with
  | none => s
  | some d =>
    if accounts.contains d.account_code then
      let was_failed := d.status = ResultStatus.failed
      let old_balance := d.balance.getD 0
      let details1 := updateById s.details detail_id fun cur =>
        updateDetailStatus cur ResultStatus.running none none none
      match outcome with
      | .raises e =>
          { task := s.task,
            details := updateById details1 detail_id fun cur =>
              updateDetailStatus cur ResultStatus.failed (some e) none none }
      | .ok r =>
          if r.success then
            let task1 :=
              if was_failed then
                { s.task with success_count := s.task.success_count + 1,
                              failed_count := max 0 (s.task.failed_count - 1) }
              else s.task
            { task := { task1 with total_balance :=
                task1.total_balance - old_balance + (r.balance.getD 0) },
              details := updateById details1 detail_id fun cur =>
                updateDetailStatus cur ResultStatus.success
                  (some (r.message.getD "Thành công")) r.balance r.screenshot }
          else
            { task := s.task,
              details := updateById details1 detail_id fun cur =>
                updateDetailStatus cur ResultStatus.failed
                  (some (r.error.getD "Unknown error")) none r.screenshot }
    else
      { task := s.task,
        details := updateById s.details detail_id fun cur =>
          updateDetailStatus cur ResultStatus.failed (some "Account not found") none none }

/-- Endpoint retry_all_failed of api.py, request part: rejected when the
task is RUNNING; otherwise every FAILED detail is reset to PENDING with its
fields cleared and failed_count is decremented once per such detail, without
any clamp; returns the reported count of re-queued details. -/
def retry_all_failed (s : TaskState) : TaskState × Nat :=
  if s.task.status = TaskStatus.running then (s, 0)
  else
    let failedD := s.details.filter fun d => d.status == ResultStatus.failed
    if failedD.isEmpty then (s, 0)
    else
      ({ task := { s.task with failed_count := s.task.failed_count - (failedD.length : Int) },
         details := s.details.map fun d =>
           if d.status == ResultStatus.failed then
             { d with status := ResultStatus.pending, result_message := none,
                      balance := none, screenshot_path := none }
           else d },
       failedD.length)

/-- Endpoint resume_task of api.py, request part: rejected when the task is
RUNNING; otherwise the PENDING and FAILED details are selected, each FAILED
one is reset to PENDING with its fields cleared and failed_count decremented
(no clamp), and the count of selected details is reported. -/
def resume_task (s : TaskState) : TaskState × Nat :=
  if s.task.status = TaskStatus.running then (s, 0)
  else
    let pendingD := s.details.filter fun d =>
      d.status == ResultStatus.pending || d.status == ResultStatus.failed
    if pendingD.isEmpty then (s, 0)
    else
      ({ task := { s.task with failed_count := s.task.failed_count -
           ((s.details.filter fun d => d.status == ResultStatus.failed).length : Int) },
         details := s.details.map fun d =>
           if d.status == ResultStatus.failed then
             { d with status := ResultStatus.pending, result_message := none,
                      balance := none, screenshot_path := none }
           else d },
       pendingD.length)

/-- Endpoint repair_incomplete_task of api.py: rejected when the task is
RUNNING; otherwise the accounts absent from the task are computed, and when
some exist they are appended as PENDING details until the declared
total_accounts is reached; returns the reported added count. New rows get
ids nextId, nextId+1, … (the store assigns fresh primary keys). -/
def repair_incomplete_task (accounts : List String) (nextId : Nat)
    (s : TaskState) : TaskState × Nat :=
  if s.task.status = TaskStatus.running then (s, 0)
  else
    let existing := s.details.map fun d => d.account_code
    let missing := accounts.filter fun a => !(existing.contains a)
    if missing.isEmpty then (s, 0)
    else
      let canAdd := s.task.total_accounts - existing.length
      let toAdd := missing.take canAdd
      ({ task := s.task,
         details := s.details ++ (toAdd.enum).map fun p =>
           { id := nextId + p.1, account_code := p.2, balance := none,
             status := ResultStatus.pending, result_message := none,
             screenshot_path := none } },
       toAdd.length)

/-- Method TaskManager.cancel_task, store fallback: self.running_tasks is
never populated anywhere in the repository, so the asyncio .cancel() branch
is dead code; the method always records the id in cancelled_tasks (modelled
by the `cancelAt` check-point oracle of the run) and then falls through to
flipping a RUNNING task row straight to FAILED. -/
def cancel_task_db_update (s : TaskState) : TaskState × Bool :=
  if s.task.status = TaskStatus.running then
    ({ s with task := { s.task with status := TaskStatus.failed } }, true)
  else (s, false)

/-- Fixed batch width of TaskManager.run_task. -/
def BATCH_SIZE : Nat := 2

/-- Bound on the automatic retry rounds of TaskManager.run_task. -/
def MAX_AUTO_RETRIES : Nat := 2

/-- In-memory context of one TaskManager.run_task invocation: the task row
and detail rows of the store, the local success/failed/balance counters, the
process-local retry_counts map, the index of the next cancellation check
point, and two observation logs (task-status writes, executor invocations
as (detail id, round) pairs; round 0 is the initial pass). -/
structure RunCtx where
  task : Task
  details : List TaskDetail
  success_count : Int
  failed_count : Int
  total_balance : Int
  retry_counts : List (Nat × Nat)
  chk : Nat
  statusWrites : List TaskStatus
  execCalls : List (Nat × Nat)
deriving DecidableEq

/-- Membership test `task_id in self.cancelled_tasks` at check point `k`:
with `cancelAt = some n` the flag is first seen at check `n` and at every
later check (membership is monotone during a run); `none` means the task is
never cancelled. -/
def isCancelled (cancelAt : Option Nat) (k : Nat) : Bool :=
  match cancelAt with
  | some n => decide (n ≤ k)
  | none => false

/-- Method TaskManager._update_task_status, with the write recorded in the
observation log. -/
def writeTaskStatus (ctx : RunCtx) (st : TaskStatus) : RunCtx :=
  { ctx with task := { ctx.task with status := st },
             statusWrites := ctx.statusWrites ++ [st] }

/-- Method TaskManager._update_task_counts: persist the local counters into
the task row. -/
def writeTaskCounts (ctx : RunCtx) : RunCtx :=
  { ctx with task := { ctx.task with
      success_count := ctx.success_count,
      failed_count := ctx.failed_count,
      total_balance := ctx.total_balance } }

/-- One iteration of the pre-pass of run_task (lines 179-195): SUCCESS
details are counted into success_count (and a truthy balance into the
total), FAILED details into failed_count, RUNNING details are skipped
uncounted, and PENDING details are appended to the work queue. -/
def prePassStep (acc : Int × Int × Int × List TaskDetail) (d : TaskDetail) :
    Int × Int × Int × List TaskDetail :=
  let (su, fa, tb, pend) := acc
  if d.status = ResultStatus.success then
    (su + 1, fa, if balTruthy d.balance then tb + d.balance.getD 0 else tb, pend)
  else if d.status ≠ ResultStatus.pending then
    if d.status = ResultStatus.failed then (su, fa + 1, tb, pend) else (su, fa, tb, pend)
  else (su, fa, tb, pend ++ [d])

/-- Pre-pass of run_task over all details of the task. -/
def prePass (details : List TaskDetail) : Int × Int × Int × List TaskDetail :=
  details.foldl prePassStep (0, 0, 0, [])

/-- Dispatch of one initial-pass batch (run_task lines 223-249): for each
detail of the batch, look its account up; a missing account marks the detail
FAILED ("Account not found in database", counted) and skips it; a found
account flips the detail to RUNNING and queues its id for the concurrent
gather. The queue can be shorter than the batch. -/
def dispatchBatch (accounts : List String) (ctx : RunCtx)
    (batch : List TaskDetail) : RunCtx × List Nat :=
  batch.foldl
    (fun (st : RunCtx × List Nat) d =>
      let (c, q) := st
      if accounts.contains d.account_code then
        ({ c with details := updateById c.details d.id fun cur =>
             updateDetailStatus cur ResultStatus.running none none none },
         q ++ [d.id])
      else
        ({ c with
             details := updateById c.details d.id fun cur =>
               updateDetailStatus cur ResultStatus.failed
                 (some "Account not found in database") none none,
             failed_count := c.failed_count + 1 },
         q))
    (ctx, [])

/-- Application of one gathered result in the initial pass (run_task lines
257-303), paired by `zip(batch_details, results)`: the account is looked up
again and a missing one skips the pair; a success result records SUCCESS
with message, balance and screenshot and counts it (truthy balance into the
total); a failure result records FAILED with the derived error message and
the screenshot. Raised exceptions never reach this point because
_process_single_account already converts them to failure dicts. -/
def applyResultInitial (accounts : List String) (ctx : RunCtx)
    (pr : TaskDetail × ExecResult) : RunCtx :=
  let (d, r) := pr
  if accounts.contains d.account_code then
    if r.success then
      { ctx with
        details := updateById ctx.details d.id fun cur =>
          updateDetailStatus cur ResultStatus.success (some "Thành công")
            r.balance r.screenshot,
        success_count := ctx.success_count + 1,
        total_balance :=
          if balTruthy r.balance then ctx.total_balance + r.balance.getD 0
          else ctx.total_balance }
    else
      { ctx with
        details := updateById ctx.details d.id fun cur =>
          updateDetailStatus cur ResultStatus.failed
            (some (get_error_message r)) none r.screenshot,
        failed_count := ctx.failed_count + 1 }
  else ctx

/-- One whole initial-pass batch: dispatch, concurrent gather (modelled by
mapping the executor oracle over the queued ids at round 0), result
application over `zip(batch_details, results)`, then the per-batch counter
write — all of it skipped when nothing was queued. -/
def initialBatchStep (accounts : List String) (exec : Nat → Nat → ExecBehavior)
    (ctx : RunCtx) (batch : List TaskDetail) : RunCtx :=
  let (ctx1, q) := dispatchBatch accounts ctx batch
  if q.isEmpty then ctx1
  else
    let results := q.map fun i => processSingleAccount (exec i 0)
    let ctx2 := (batch.zip results).foldl (applyResultInitial accounts) ctx1
    let ctx3 := { ctx2 with execCalls := ctx2.execCalls ++ q.map fun i => (i, 0) }
    writeTaskCounts ctx3

/-- Cancellation handling at an initial-pass batch boundary (run_task lines
204-211): every remaining queued detail whose live row is still PENDING is
marked FAILED with message "Task cancelled" and counted into failed_count. -/
def cancelMark (ctx : RunCtx) (remaining : List TaskDetail) : RunCtx :=
  remaining.foldl
    (fun c d =>
      match findDetail c.details d.id with
      | some cur =>
        if cur.status = ResultStatus.pending then
          { c with
            details := updateById c.details d.id fun x =>
              updateDetailStatus x ResultStatus.failed (some "Task cancelled") none none,
            failed_count := c.failed_count + 1 }
        else c
      | none => c)
    ctx

/-- Initial-pass batch loop of run_task: the PENDING queue is consumed two
details at a time (BATCH_SIZE = 2); each boundary first consumes one
cancellation check point — when the flag is seen, the remaining queue is
cancel-marked and the loop stops. -/
def initialLoop (accounts : List String) (exec : Nat → Nat → ExecBehavior)
    (cancelAt : Option Nat) : RunCtx → List TaskDetail → RunCtx
  | ctx, [] => ctx
  | ctx, [d] =>
    if isCancelled cancelAt ctx.chk then
      cancelMark { ctx with chk := ctx.chk + 1 } [d]
    else
      initialBatchStep accounts exec { ctx with chk := ctx.chk + 1 } [d]
  | ctx, d1 :: d2 :: rest =>
    if isCancelled cancelAt ctx.chk then
      cancelMark { ctx with chk := ctx.chk + 1 } (d1 :: d2 :: rest)
    else
      initialLoop accounts exec cancelAt
        (initialBatchStep accounts exec { ctx with chk := ctx.chk + 1 } [d1, d2]) rest

/-- Reset performed on a FAILED detail by the Retry Coordinator right before
re-dispatch (run_task lines 369-371): status back to PENDING and the result
message cleared — balance and screenshot_path are left as they are. -/
def resetDetailForAutoRetry (d : TaskDetail) : TaskDetail :=
  { d with status := ResultStatus.pending, result_message := none }

/-- Lookup in the process-local retry_counts map (default 0). -/
def rcGet (rc : List (Nat × Nat)) (i : Nat) : Nat :=
  (rc.lookup i).getD 0

/-- Increment in the process-local retry_counts map. -/
def rcInc (rc : List (Nat × Nat)) (i : Nat) : List (Nat × Nat) :=
  (i, rcGet rc i + 1) :: rc

/-- Dispatch of one retry batch (run_task lines 354-381): details whose
account is missing are skipped silently (continue); for found accounts the
retry counter is incremented, the detail is reset by
`resetDetailForAutoRetry`, flipped to RUNNING, and queued. -/
def dispatchRetryBatch (accounts : List String) (ctx : RunCtx)
    (batch : List TaskDetail) : RunCtx × List Nat :=
  batch.foldl
    (fun (st : RunCtx × List Nat) d =>
      let (c, q) := st
      if accounts.contains d.account_code then
        let c1 := { c with retry_counts := rcInc c.retry_counts d.id }
        let c2 := { c1 with details := updateById c1.details d.id resetDetailForAutoRetry }
        let c3 := { c2 with details := updateById c2.details d.id fun cur =>
          updateDetailStatus cur ResultStatus.running none none none }
        (c3, q ++ [d.id])
      else (c, q))
    (ctx, [])

/-- Application of one gathered result in a retry round (run_task lines
388-426): a retry success records SUCCESS ("Thành công (sau retry)") and
transfers the item from failed_count to success_count (truthy balance into
the total); a retry failure records FAILED with a "Retry failed:" message
and the screenshot, without touching the counters. -/
def applyResultRetry (accounts : List String) (ctx : RunCtx)
    (pr : TaskDetail × ExecResult) : RunCtx :=
  let (d, r) := pr
  if accounts.contains d.account_code then
    if r.success then
      { ctx with
        details := updateById ctx.details d.id fun cur =>
          updateDetailStatus cur ResultStatus.success (some "Thành công (sau retry)")
            r.balance r.screenshot,
        failed_count := ctx.failed_count - 1,
        success_count := ctx.success_count + 1,
        total_balance :=
          if balTruthy r.balance then ctx.total_balance + r.balance.getD 0
          else ctx.total_balance }
    else
      { ctx with
        details := updateById ctx.details d.id fun cur =>
          updateDetailStatus cur ResultStatus.failed
            (some ("Retry failed: " ++ get_error_message r)) none r.screenshot }
  else ctx

/-- One whole retry batch at round `round`: dispatch, gather, application
over `zip(batch_details, results)`, then the counter write — skipped when
nothing was queued. -/
def retryBatchStep (accounts : List String) (exec : Nat → Nat → ExecBehavior)
    (round : Nat) (ctx : RunCtx) (batch : List TaskDetail) : RunCtx :=
  let (ctx1, q) := dispatchRetryBatch accounts ctx batch
  if q.isEmpty then ctx1
  else
    let results := q.map fun i => processSingleAccount (exec i round)
    let ctx2 := (batch.zip results).foldl (applyResultRetry accounts) ctx1
    let ctx3 := { ctx2 with execCalls := ctx2.execCalls ++ q.map fun i => (i, round) }
    writeTaskCounts ctx3

/-- Retry-round batch loop (run_task lines 343-433): the candidates are
consumed two at a time; each boundary consumes one cancellation check point
and, when the flag is seen, the loop just breaks (no cancel-marking here). -/
def retryLoop (accounts : List String) (exec : Nat → Nat → ExecBehavior)
    (cancelAt : Option Nat) (round : Nat) : RunCtx → List TaskDetail → RunCtx
  | ctx, [] => ctx
  | ctx, [d] =>
    if isCancelled cancelAt ctx.chk then { ctx with chk := ctx.chk + 1 }
    else retryBatchStep accounts exec round { ctx with chk := ctx.chk + 1 } [d]
  | ctx, d1 :: d2 :: rest =>
    if isCancelled cancelAt ctx.chk then { ctx with chk := ctx.chk + 1 }
    else
      retryLoop accounts exec cancelAt round
        (retryBatchStep accounts exec round { ctx with chk := ctx.chk + 1 } [d1, d2]) rest

/-- Retry Coordinator rounds (run_task lines 319-433): at most
MAX_AUTO_RETRIES rounds; each round queries the currently FAILED details,
drops those whose retry counter has reached MAX_AUTO_RETRIES, stops for good
when none remain, and otherwise runs the retry batch loop on the survivors.
`round` is the 1-based round index used to index the executor oracle. -/
def retryPhase (accounts : List String) (exec : Nat → Nat → ExecBehavior)
    (cancelAt : Option Nat) : Nat → Nat → RunCtx → RunCtx
  | 0, _, ctx => ctx
  | Nat.succ n, round, ctx =>
    let cands := (ctx.details.filter fun d => d.status == ResultStatus.failed).filter
      fun d => decide (rcGet ctx.retry_counts d.id < MAX_AUTO_RETRIES)
    if cands.isEmpty then ctx
    else
      retryPhase accounts exec cancelAt n (round + 1)
        (retryLoop accounts exec cancelAt round ctx cands)

/-- Method TaskManager.run_task: pre-start cancellation check (check point
0), flip to RUNNING, early COMPLETED return on an empty detail set, pre-pass
partition, initial batch loop (check points from 1), retry rounds, and the
finalisation that writes FAILED when cancelled and COMPLETED otherwise,
followed by the final counter write. -/
def runTaskCtx (accounts : List String) (exec : Nat → Nat → ExecBehavior)
    (cancelAt : Option Nat) (s : TaskState) : RunCtx :=
  let ctx0 : RunCtx :=
    { task := s.task, details := s.details, success_count := 0, failed_count := 0,
      total_balance := 0, retry_counts := [], chk := 0, statusWrites := [], execCalls := [] }
  if isCancelled cancelAt ctx0.chk then writeTaskStatus ctx0 TaskStatus.failed
  else
    let ctx1 := writeTaskStatus ctx0 TaskStatus.running
    if s.details.isEmpty then writeTaskStatus ctx1 TaskStatus.completed
    else
      match prePass s.details with
      | (su, fa, tb, pendingQ) =>
        let ctx2 : RunCtx :=
          { ctx1 with success_count := su, failed_count := fa, total_balance := tb, chk := 1 }
        let ctx3 := initialLoop accounts exec cancelAt ctx2 pendingQ
        let ctx4 := retryPhase accounts exec cancelAt MAX_AUTO_RETRIES 1 ctx3
        let ctx5 := writeTaskStatus ctx4
          (if isCancelled cancelAt ctx4.chk then TaskStatus.failed else TaskStatus.completed)
        writeTaskCounts ctx5

/-- Store state produced by one run_task invocation. -/
def runTask (accounts : List String) (exec : Nat → Nat → ExecBehavior)
    (cancelAt : Option Nat) (s : TaskState) : TaskState :=
  { task := (runTaskCtx accounts exec cancelAt s).task,
    details := (runTaskCtx accounts exec cancelAt s).details }

/-- Snapshot of the task row as polled by the progress stream. -/
structure TaskSnap where
  success_count : Int
  failed_count : Int
  status : TaskStatus
  total_accounts : Nat
  total_balance : Int
deriving DecidableEq

/-- Events yielded by the per-task SSE stream: a change snapshot or the
final terminal event after which the stream closes. Payload fields beyond
the counts, status and derived pending count (progress percentage, latest
account, timestamps) are presentation only and are not modelled. -/
inductive StreamEvent
  | snapshot (success_count failed_count : Int) (status : TaskStatus) (pending_count : Int)
  | terminal (status : TaskStatus) (success_count failed_count : Int)
deriving DecidableEq

/-- Predicate selecting the terminal event. -/
def StreamEvent.isTerminal : StreamEvent → Bool
  | .terminal _ _ _ => true
  | _ => false

/-- Counts carried by a snapshot event, for stating change detection. -/
def snapCounts : List StreamEvent → List (Int × Int)
  | [] => []
  | .snapshot su fa _ _ :: rest => (su, fa) :: snapCounts rest
  | .terminal _ _ _ :: rest => snapCounts rest

/-- Generator event_generator of api.stream_task_progress: each list element
is one poll of the task row (one loop iteration against a fresh session).
A snapshot is yielded only when success_count or failed_count differs from
the last observed pair (initialised to the sentinel -1,-1), which is then
updated; afterwards, when the task status is COMPLETED or FAILED, the single
terminal event is yielded and the stream ends. -/
def event_generator (last_success last_failed : Int) :
    List TaskSnap → List StreamEvent
  | [] => []
  | t :: rest =>
    if t.success_count ≠ last_success ∨ t.failed_count ≠ last_failed then
      let ev := StreamEvent.snapshot t.success_count t.failed_count t.status
        ((t.total_accounts : Int) - t.success_count - t.failed_count)
      if t.status = TaskStatus.completed ∨ t.status = TaskStatus.failed then
        [ev, StreamEvent.terminal t.status t.success_count t.failed_count]
      else
        ev :: event_generator t.success_count t.failed_count rest
    else
      if t.status = TaskStatus.completed ∨ t.status = TaskStatus.failed then
        [StreamEvent.terminal t.status t.success_count t.failed_count]
      else
        event_generator last_success last_failed rest

/-- Stream endpoint entry: the generator starts from the -1,-1 sentinel, so
the first poll always yields a snapshot. -/
def stream_task_progress (polls : List TaskSnap) : List StreamEvent :=
  event_generator (-1) (-1) polls

/-- Rewrite applied to a row by the initial-pass result application, as a
function of the gathered result alone (the success and failure branches of
run_task lines 274-296). -/
def applyFnInitial (r : ExecResult) (cur : TaskDetail) : TaskDetail :=
  if r.success then
    updateDetailStatus cur ResultStatus.success (some "Thành công") r.balance r.screenshot
  else
    updateDetailStatus cur ResultStatus.failed (some (get_error_message r)) none r.screenshot

/-- Expected final row of a detail processed by an initial-pass batch whose
account resolves: flipped to RUNNING at dispatch, then rewritten by the
result application for its own executor result. -/
def applyExecOutcome (d : TaskDetail) (r : ExecResult) : TaskDetail :=
  applyFnInitial r { d with status := ResultStatus.running }

/-- Result dict seen for detail `d` in the initial pass (after the exception
catch of _process_single_account). -/
def initialResult (exec : Nat → Nat → ExecBehavior) (d : TaskDetail) : ExecResult :=
  processSingleAccount (exec d.id 0)

/-- Number of initial-pass successes among the given details. -/
def execSuccCount (exec : Nat → Nat → ExecBehavior) (ds : List TaskDetail) : Int :=
  ((ds.filter fun d => (initialResult exec d).success).length : Int)

/-- Number of initial-pass failures among the given details. -/
def execFailCount (exec : Nat → Nat → ExecBehavior) (ds : List TaskDetail) : Int :=
  ((ds.filter fun d => !(initialResult exec d).success).length : Int)

/-! Concrete store states and executor oracles used to evaluate the engine
on specific inputs. -/

/-- Failure result dict of an executor run that failed without a recorded
step (e.g. a login refusal reported only through `error`). -/
def execFail : ExecResult :=
  { success := false, message := none, balance := none, screenshot := none,
    error := some "login failed", failed_step := none }

/-- Executor oracle that fails every invocation of every item. -/
def alwaysFail : Nat → Nat → ExecBehavior := fun _ _ => ExecBehavior.ok execFail

/-- Store with a single COMPLETED task that still owns a RUNNING detail —
the persisted state left behind when the process dies while
retry_single_detail has an item in flight (the endpoint does not flip the
task away from COMPLETED), or when cancel_task hits the CancelledError
handler, which fails the task row but never touches its RUNNING details. -/
def recoveryDb : List TaskState :=
  [{ task := { status := TaskStatus.completed, total_accounts := 1, success_count := 0,
               failed_count := 0, total_balance := 0 },
     details := [{ id := 0, account_code := "A", balance := none,
                   status := ResultStatus.running, result_message := none,
                   screenshot_path := none }] }]

/-- Detail that failed with a recorded balance and screenshot. -/
def failedDetailWithArtifacts : TaskDetail :=
  { id := 0, account_code := "A", balance := some 5, status := ResultStatus.failed,
    result_message := some "err", screenshot_path := some "shot.png" }

/-- Task whose stored failed_count is already 0 although it owns a FAILED
detail (reachable: a manual retry decrements the count, then the background
re-run fails again without restoring it). -/
def zeroFailedCountState : TaskState :=
  { task := { status := TaskStatus.completed, total_accounts := 1, success_count := 0,
              failed_count := 0, total_balance := 0 },
    details := [failedDetailWithArtifacts] }

/-- Task whose stored failed_count is 3 and that owns a FAILED detail. -/
def threeFailedCountState : TaskState :=
  { task := { status := TaskStatus.completed, total_accounts := 4, success_count := 0,
              failed_count := 3, total_balance := 0 },
    details := [failedDetailWithArtifacts] }

/-- Two-item task whose first detail references account "A", which is absent
from the accounts table (the account was deleted after task creation), while
the second references the existing account "B". -/
def danglingFirstState : TaskState :=
  { task := { status := TaskStatus.pending, total_accounts := 2, success_count := 0,
              failed_count := 0, total_balance := 0 },
    details := [{ id := 0, account_code := "A", balance := none,
                  status := ResultStatus.pending, result_message := none,
                  screenshot_path := none },
                { id := 1, account_code := "B", balance := none,
                  status := ResultStatus.pending, result_message := none,
                  screenshot_path := none }] }

/-- Executor oracle for `danglingFirstState`: item 1 raises. -/
def raisingSecond : Nat → Nat → ExecBehavior := fun i _ =>
  if i == 1 then ExecBehavior.raises "boom" else ExecBehavior.ok execFail

/-- Task with one account "A" before any run. -/
def oneItemTask : TaskState := create_task ["A"]

/-- Empty task (zero details). -/
def emptyTask : TaskState :=
  { task := { status := TaskStatus.pending, total_accounts := 0, success_count := 0,
              failed_count := 0, total_balance := 0 },
    details := [] }

/-- Single-account repair scenario: account "A" is already in the task. -/
def repairedState : TaskState :=
  { task := { status := TaskStatus.completed, total_accounts := 1, success_count := 0,
              failed_count := 0, total_balance := 0 },
    details := [{ id := 0, account_code := "A", balance := none,
                  status := ResultStatus.pending, result_message := none,
                  screenshot_path := none }] }

/-- Poll of a non-terminal task whose counters are 0/0. -/
def quietPoll : TaskSnap :=
  { success_count := 0, failed_count := 0, status := TaskStatus.running,
    total_accounts := 3, total_balance := 0 }

/-- Store with one RUNNING task owning one RUNNING item, as left behind by a
crash in the middle of a batch. -/
def runningRecoveryState : TaskState :=
  { task := { status := TaskStatus.running, total_accounts := 1, success_count := 0,
              failed_count := 0, total_balance := 0 },
    details := [{ id := 0, account_code := "A", balance := none,
                  status := ResultStatus.running, result_message := none,
                  screenshot_path := none }] }

/-- Row produced by clearing `failedDetailWithArtifacts` through the manual
retry endpoint. -/
def clearedArtifactDetail : TaskDetail :=
  { failedDetailWithArtifacts with
    status := ResultStatus.pending, result_message := none, balance := none,
    screenshot_path := none }

/-- Final row of the one-account task after a run whose executor always
fails: the second retry round records the prefixed failure message. -/
def oneItemFailedDetail : TaskDetail :=
  { id := 0, account_code := "A", balance := none, status := ResultStatus.failed,
    result_message := some "Retry failed: login failed", screenshot_path := none }


/-- In-memory context of run_task right after the flip to RUNNING and the
pre-pass of an all-PENDING task: zero local counters, empty retry_counts,
check point 1, one RUNNING status write, no executor calls yet. -/
def startRunCtx (s : TaskState) : RunCtx :=
  { task := { s.task with status := TaskStatus.running }, details := s.details,
    success_count := 0, failed_count := 0, total_balance := 0,
    retry_counts := [], chk := 1, statusWrites := [TaskStatus.running], execCalls := [] }

/-- Second detail of `danglingFirstState` (account "B", which exists). -/
def detailB : TaskDetail :=
  { id := 1, account_code := "B", balance := none, status := ResultStatus.pending,
    result_message := none, screenshot_path := none }

/-- Third detail of a task created over accounts A, B, C. -/
def thirdPendingDetail : TaskDetail :=
  { id := 2, account_code := "C", balance := none, status := ResultStatus.pending,
    result_message := none, screenshot_path := none }

/-- Row left behind by the recovery sweep for the RUNNING item of
`runningRecoveryState`. -/
def recoveredCrashDetail : TaskDetail :=
  { id := 0, account_code := "A", balance := none, status := ResultStatus.failed,
    result_message := some "Server bị crash khi đang chạy", screenshot_path := none }

end DSJ

namespace DSJ

/-! General lemmas about the store primitives. -/

/-- Row updates that keep the primary key also keep it under the
conditional rewrite of `updateById`. -/
theorem id_of_if_update (i : Nat) (f : TaskDetail → TaskDetail)
    (hf : ∀ d, (f d).id = d.id) (d : TaskDetail) :
    (if d.id = i then f d else d).id = d.id := by
  split
  · exact hf d
  · rfl

/-- A found row carries the looked-up primary key. -/
theorem findDetail_some_id {db : List TaskDetail} {i : Nat} {d : TaskDetail}
    (h : findDetail db i = some d) : d.id = i := by
  induction db with
  | nil => simp [findDetail] at h
  | cons x rest ih =>
    by_cases hx : x.id = i
    · simp only [findDetail, if_pos hx, Option.some.injEq] at h
      rw [← h]; exact hx
    · simp only [findDetail, if_neg hx] at h
      exact ih h

/-- Looking a row up after `updateById` sees the rewritten row. -/
theorem findDetail_updateById (db : List TaskDetail) (i j : Nat)
    (f : TaskDetail → TaskDetail) (hf : ∀ d, (f d).id = d.id) :
    findDetail (updateById db i f) j =
      (findDetail db j).map fun d => if d.id = i then f d else d := by
  induction db with
  | nil => rfl
  | cons d rest ih =>
    have hcond : (if d.id = i then f d else d).id = d.id := id_of_if_update i f hf d
    by_cases hj : d.id = j
    · simp only [updateById, List.map_cons, findDetail, hcond, if_pos hj]
      rfl
    · simp only [updateById, List.map_cons, findDetail, hcond, if_neg hj]
      exact ih

/-- Reading back the row that `updateById` rewrote. -/
theorem findDetail_updateById_self {db : List TaskDetail} {i : Nat}
    {f : TaskDetail → TaskDetail} {d : TaskDetail}
    (hf : ∀ x, (f x).id = x.id) (h : findDetail db i = some d) :
    findDetail (updateById db i f) i = some (f d) := by
  rw [findDetail_updateById db i i f hf, h, Option.map_some']
  rw [if_pos (findDetail_some_id h)]

/-- Reading any other row after `updateById`. -/
theorem findDetail_updateById_ne {db : List TaskDetail} {i j : Nat}
    {f : TaskDetail → TaskDetail} (hf : ∀ x, (f x).id = x.id) (hne : j ≠ i) :
    findDetail (updateById db i f) j = findDetail db j := by
  rw [findDetail_updateById db i j f hf]
  cases h : findDetail db j with
  | none => rfl
  | some d =>
    have hdj : d.id = j := findDetail_some_id h
    rw [Option.map_some', if_neg (by rw [hdj]; exact hne)]

/-- _update_detail_status keeps the primary key. -/
theorem updateDetailStatus_id (d : TaskDetail) (st : ResultStatus)
    (m : Option String) (b : Option Int) (sc : Option String) :
    (updateDetailStatus d st m b sc).id = d.id := rfl

/-- The auto-retry reset keeps the primary key. -/
theorem resetDetailForAutoRetry_id (d : TaskDetail) :
    (resetDetailForAutoRetry d).id = d.id := rfl

/-- Repair never touches the task row itself. -/
theorem repair_preserves_task (accounts : List String) (n : Nat) (s : TaskState) :
    (repair_incomplete_task accounts n s).1.task = s.task := by
  unfold repair_incomplete_task
  split
  · rfl
  · dsimp only
    split
    · rfl
    · rfl

/-! Lemmas about the progress stream generator. -/

/-- Successive observed counter pairs are always distinct: starting from the
last observation, every yielded snapshot changes the pair. -/
theorem event_generator_chain (polls : List TaskSnap) : ∀ ls lf : Int,
    List.Chain' (· ≠ ·) ((ls, lf) :: snapCounts (event_generator ls lf polls)) := by
  induction polls with
  | nil => intro ls lf; simp [event_generator, snapCounts]
  | cons t rest ih =>
    intro ls lf
    by_cases hch : t.success_count ≠ ls ∨ t.failed_count ≠ lf
    · have hne : ((ls, lf) : Int × Int) ≠ (t.success_count, t.failed_count) := by
        intro hEq
        rcases hch with h | h
        · exact h (congrArg Prod.fst hEq).symm
        · exact h (congrArg Prod.snd hEq).symm
      by_cases hterm : t.status = TaskStatus.completed ∨ t.status = TaskStatus.failed
      · simp only [event_generator, if_pos hch, if_pos hterm, snapCounts]
        exact List.chain'_pair.mpr hne
      · simp only [event_generator, if_pos hch, if_neg hterm, snapCounts]
        exact (List.chain'_cons).mpr ⟨hne, ih t.success_count t.failed_count⟩
    · by_cases hterm : t.status = TaskStatus.completed ∨ t.status = TaskStatus.failed
      · simp only [event_generator, if_neg hch, if_pos hterm, snapCounts]
        simp
      · simp only [event_generator, if_neg hch, if_neg hterm]
        exact ih ls lf

/-- When some poll observes a terminal status, the stream is a terminal-free
prefix followed by exactly one terminal event and then it ends; when no poll
does, no terminal event is ever yielded. -/
theorem event_generator_terminal_split (polls : List TaskSnap) : ∀ ls lf : Int,
    ((∃ t ∈ polls, t.status = TaskStatus.completed ∨ t.status = TaskStatus.failed) →
       ∃ pre st su fa, event_generator ls lf polls = pre ++ [StreamEvent.terminal st su fa] ∧
         ∀ e ∈ pre, e.isTerminal = false) ∧
    ((∀ t ∈ polls, ¬(t.status = TaskStatus.completed ∨ t.status = TaskStatus.failed)) →
       ∀ e ∈ event_generator ls lf polls, e.isTerminal = false) := by
  induction polls with
  | nil =>
    intro ls lf
    constructor
    · rintro ⟨t, ht, -⟩
      exact absurd ht (List.not_mem_nil t)
    · intro _ e he
      simp [event_generator] at he
  | cons t rest ih =>
    intro ls lf
    constructor
    · rintro ⟨t0, ht0, hterm0⟩
      by_cases hterm : t.status = TaskStatus.completed ∨ t.status = TaskStatus.failed
      · by_cases hch : t.success_count ≠ ls ∨ t.failed_count ≠ lf
        · refine ⟨[StreamEvent.snapshot t.success_count t.failed_count t.status
              ((t.total_accounts : Int) - t.success_count - t.failed_count)],
            t.status, t.success_count, t.failed_count, ?_, ?_⟩
          · simp only [event_generator, if_pos hch, if_pos hterm]
            rfl
          · intro e he
            simp only [List.mem_singleton] at he
            subst he
            rfl
        · refine ⟨[], t.status, t.success_count, t.failed_count, ?_, ?_⟩
          · simp only [event_generator, if_neg hch, if_pos hterm]
            rfl
          · intro e he
            exact absurd he (List.not_mem_nil e)
      · have ht0r : t0 ∈ rest := by
          rcases List.mem_cons.mp ht0 with h | h
          · exact absurd (h ▸ hterm0) hterm
          · exact h
        by_cases hch : t.success_count ≠ ls ∨ t.failed_count ≠ lf
        · obtain ⟨pre, st, su, fa, hsplit, hpre⟩ :=
            (ih t.success_count t.failed_count).1 ⟨t0, ht0r, hterm0⟩
          refine ⟨StreamEvent.snapshot t.success_count t.failed_count t.status
              ((t.total_accounts : Int) - t.success_count - t.failed_count) :: pre,
            st, su, fa, ?_, ?_⟩
          · simp only [event_generator, if_pos hch, if_neg hterm, hsplit]
            rfl
          · intro e he
            rcases List.mem_cons.mp he with h | h
            · subst h; rfl
            · exact hpre e h
        · obtain ⟨pre, st, su, fa, hsplit, hpre⟩ := (ih ls lf).1 ⟨t0, ht0r, hterm0⟩
          refine ⟨pre, st, su, fa, ?_, hpre⟩
          simp only [event_generator, if_neg hch, if_neg hterm, hsplit]
    · intro hall e he
      have hterm : ¬(t.status = TaskStatus.completed ∨ t.status = TaskStatus.failed) :=
        hall t (List.mem_cons_self t rest)
      have hrest : ∀ t0 ∈ rest, ¬(t0.status = TaskStatus.completed ∨ t0.status = TaskStatus.failed) :=
        fun t0 h => hall t0 (List.mem_cons_of_mem t h)
      by_cases hch : t.success_count ≠ ls ∨ t.failed_count ≠ lf
      · simp only [event_generator, if_pos hch, if_neg hterm] at he
        rcases List.mem_cons.mp he with h | h
        · subst h; rfl
        · exact (ih t.success_count t.failed_count).2 hrest e h
      · simp only [event_generator, if_neg hch, if_neg hterm] at he
        exact (ih ls lf).2 hrest e he

/-- Polls that neither change the counters nor reach a terminal status
produce no events at all. -/
theorem event_generator_no_change (polls : List TaskSnap) : ∀ ls lf : Int,
    (∀ t ∈ polls, t.success_count = ls ∧ t.failed_count = lf ∧
        t.status ≠ TaskStatus.completed ∧ t.status ≠ TaskStatus.failed) →
    event_generator ls lf polls = [] := by
  induction polls with
  | nil => intro ls lf _; rfl
  | cons t rest ih =>
    intro ls lf hall
    obtain ⟨hsu, hfa, hc, hf⟩ := hall t (List.mem_cons_self t rest)
    have hch : ¬(t.success_count ≠ ls ∨ t.failed_count ≠ lf) := by
      push_neg
      exact ⟨hsu, hfa⟩
    have hterm : ¬(t.status = TaskStatus.completed ∨ t.status = TaskStatus.failed) := by
      push_neg
      exact ⟨hc, hf⟩
    simp only [event_generator, if_neg hch, if_neg hterm]
    exact ih ls lf fun t0 h => hall t0 (List.mem_cons_of_mem t h)

/-! Theorems settling the claims. -/

/-- C1: the spec invariant `success_count, failed_count ∈ [0, total_items]`
is violated by the code at the observation point "after a retry-all
request". Failing trace on a one-account task: run_task with a failing
executor leaves the item FAILED and failed_count = 1; the manual retry
endpoint decrements failed_count to 0 (clamped) and re-queues the item; the
background retry_single_detail fails again, leaving the item FAILED while
failed_count stays 0; retry_all_failed then decrements failed_count once per
FAILED item without a clamp, producing failed_count = -1 ∉ [0, 1]. -/
theorem c1_failed_count_goes_negative :
    (retry_all_failed (retry_single_detail ["A"] (ExecBehavior.ok execFail)
        (retry_task_detail (runTask ["A"] alwaysFail none oneItemTask) 0)
        0)).1.task.failed_count = -1 ∧
    ¬(0 ≤ (retry_all_failed (retry_single_detail ["A"] (ExecBehavior.ok execFail)
        (retry_task_detail (runTask ["A"] alwaysFail none oneItemTask) 0)
        0)).1.task.failed_count) ∧
    oneItemTask.task.total_accounts = 1 := by
  decide

/-- C2, counterexample: a one-account task whose executor fails the initial
pass and both retry rounds (the executor is invoked at rounds 0, 1 and 2 and
the RetryCounter then excludes the item), with the task never cancelled,
finalises with status COMPLETED while the item is still FAILED — the claim
says the final status is FAILED. -/
theorem c2_counterexample :
    (runTask ["A"] alwaysFail none oneItemTask).task.status = TaskStatus.completed ∧
    (findDetail (runTask ["A"] alwaysFail none oneItemTask).details 0).map
      (fun d => d.status) = some ResultStatus.failed ∧
    (runTaskCtx ["A"] alwaysFail none oneItemTask).execCalls = [(0, 0), (0, 1), (0, 2)] := by
  decide

/-- C2, amended: when the retry rounds are exhausted with an item still
FAILED and the task was never cancelled, run_task finalises the task as
COMPLETED (not FAILED) — a never-cancelled run always ends COMPLETED. -/
theorem c2_amended_completed_when_never_cancelled
    (accounts : List String) (exec : Nat → Nat → ExecBehavior) (s : TaskState)
    (_hfail : ∃ d ∈ (runTask accounts exec none s).details, d.status = ResultStatus.failed) :
    (runTask accounts exec none s).task.status = TaskStatus.completed := by
  show (runTaskCtx accounts exec none s).task.status = TaskStatus.completed
  unfold runTaskCtx
  rcases hp : prePass s.details with ⟨su, fa, tb, pendingQ⟩
  simp only [isCancelled, writeTaskStatus, writeTaskCounts, hp]
  split
  next h => simp at h
  next =>
    split
    · rfl
    · rfl

/-- C2, witness for the amended theorem at the concrete failing run. -/
theorem c2_amended_witness :
    (runTask ["A"] alwaysFail none oneItemTask).task.status = TaskStatus.completed :=
  c2_amended_completed_when_never_cancelled ["A"] alwaysFail oneItemTask
    ⟨oneItemFailedDetail, by decide, by decide⟩

/-- C3, counterexample: the recovery sweep only queries tasks whose status
is RUNNING, so a RUNNING WorkItem under a COMPLETED task survives the sweep
untouched — the claim says no WorkItem is RUNNING afterwards regardless of
the owning task status. The pre-restart store is reachable: the process can
die while retry_single_detail has the item in flight (its task stays
COMPLETED), and the CancelledError path of run_task fails the task row
without resolving its RUNNING items. -/
theorem c3_counterexample :
    (startup_event recoveryDb).map (fun t => t.details.map fun d => d.status) =
      [[ResultStatus.running]] ∧
    recoveryDb.map (fun t => t.task.status) = [TaskStatus.completed] := by
  decide

/-- C3, amended: after the recovery sweep, no WorkItem under a task that was
RUNNING at restart is in RUNNING state; tasks found in any other status are
left completely untouched, so any WorkItem still RUNNING after the sweep
belongs to such an untouched task. -/
theorem c3_amended_recovery_scope (db : List TaskState) (t : TaskState) (ht : t ∈ db) :
    (t.task.status = TaskStatus.running →
       ∀ d ∈ (recoverTask t).details, d.status ≠ ResultStatus.running) ∧
    (t.task.status ≠ TaskStatus.running → recoverTask t = t) ∧
    recoverTask t ∈ startup_event db := by
  refine ⟨?_, ?_, ?_⟩
  · intro hrun d hd
    unfold recoverTask at hd
    rw [if_pos hrun] at hd
    simp only [List.mem_map] at hd
    obtain ⟨x, _, rfl⟩ := hd
    by_cases hx : x.status == ResultStatus.running
    · simp only [if_pos hx]
      intro hcontra
      exact ResultStatus.noConfusion (hcontra)
    · simp only [if_neg hx]
      intro hcontra
      simp [hcontra] at hx
  · intro hnrun
    unfold recoverTask
    rw [if_neg hnrun]
  · exact List.mem_map_of_mem recoverTask ht

/-- C3, witness: the amended theorem applied to a store holding one RUNNING
task with one RUNNING item. -/
theorem c3_amended_witness :
    recoveredCrashDetail.status ≠ ResultStatus.running :=
  (c3_amended_recovery_scope [runningRecoveryState] runningRecoveryState
    (List.mem_singleton.mpr rfl)).1 rfl recoveredCrashDetail (by decide)

/-- C4, counterexample: the automatic retry reset of the Retry Coordinator
clears only the result message — balance and screenshot_path survive the
reset — and the manual retry endpoint on a task whose failed_count is
already 0 changes failed_count by 0, not by exactly 1. -/
theorem c4_counterexample :
    (resetDetailForAutoRetry failedDetailWithArtifacts).balance = some 5 ∧
    (resetDetailForAutoRetry failedDetailWithArtifacts).screenshot_path = some "shot.png" ∧
    (retry_task_detail zeroFailedCountState 0).task.failed_count =
      zeroFailedCountState.task.failed_count := by
  decide

/-- C4, amended: a manual single-item retry on a FAILED WorkItem resets it
to PENDING and clears message, balance and screenshot, decrementing the task
failed_count by one clamped at zero; the automatic retry reset of the Retry
Coordinator resets the item to PENDING and clears only the result message,
keeping balance and screenshot, and adjusts no counter at reset time (the
failed-to-success transfer happens only when the retry later succeeds). -/
theorem c4_amended_retry_reset (s : TaskState) (i : Nat) (d : TaskDetail)
    (hrun : s.task.status ≠ TaskStatus.running)
    (hfind : findDetail s.details i = some d)
    (hst : d.status = ResultStatus.failed) :
    (findDetail (retry_task_detail s i).details i =
        some { d with status := ResultStatus.pending, result_message := none,
                      balance := none, screenshot_path := none } ∧
     (retry_task_detail s i).task.failed_count = max 0 (s.task.failed_count - 1)) ∧
    ((resetDetailForAutoRetry d).status = ResultStatus.pending ∧
     (resetDetailForAutoRetry d).result_message = none ∧
     (resetDetailForAutoRetry d).balance = d.balance ∧
     (resetDetailForAutoRetry d).screenshot_path = d.screenshot_path) := by
  constructor
  · unfold retry_task_detail
    rw [if_neg hrun, hfind]
    simp only [if_pos (Or.inl hst), if_pos hst]
    refine ⟨findDetail_updateById_self (fun x => rfl) hfind, ?_⟩
    trivial
  · exact ⟨rfl, rfl, rfl, rfl⟩

/-- C4, witness for the amended theorem: on a task with failed_count 3, the
manual retry leaves the cleared PENDING row and failed_count 2. -/
theorem c4_amended_witness :
    findDetail (retry_task_detail threeFailedCountState 0).details 0 =
      some clearedArtifactDetail ∧
    (retry_task_detail threeFailedCountState 0).task.failed_count =
      max 0 (threeFailedCountState.task.failed_count - 1) := by
  have h := (c4_amended_retry_reset threeFailedCountState 0 failedDetailWithArtifacts
    (by decide) (by decide) (by decide)).1
  simpa [clearedArtifactDetail, failedDetailWithArtifacts] using h

/-- C5, counterexample: in a batch whose first item carries a dangling
account reference, `zip(batch_details, results)` pairs the gathered results
against the wrong details, and the result of the raising second item is
dropped: the executor is invoked for item 1 and raises, yet item 1 ends the
run in RUNNING state with no message at all instead of FAILED with the
exception text. -/
theorem c5_counterexample :
    ((1, 0) ∈ (runTaskCtx ["B"] raisingSecond none danglingFirstState).execCalls) ∧
    (findDetail (runTask ["B"] raisingSecond none danglingFirstState).details 1).map
      (fun d => d.status) = some ResultStatus.running ∧
    (findDetail (runTask ["B"] raisingSecond none danglingFirstState).details 1).map
      (fun d => d.result_message) = some none := by
  decide

/-- C7: running repair_incomplete_task twice in a row, when after the first
call either the detail count has reached total_accounts or every known
account is already in the task, makes the second call a no-op returning the
unchanged state and an added count of 0. -/
theorem c7_repair_idempotent (accounts : List String) (n1 n2 : Nat) (s : TaskState)
    (hrun : s.task.status ≠ TaskStatus.running)
    (hnomiss :
      (repair_incomplete_task accounts n1 s).1.task.total_accounts ≤
          (repair_incomplete_task accounts n1 s).1.details.length ∨
        ∀ a ∈ accounts,
          a ∈ (repair_incomplete_task accounts n1 s).1.details.map fun d => d.account_code) :
    repair_incomplete_task accounts n2 (repair_incomplete_task accounts n1 s).1 =
      ((repair_incomplete_task accounts n1 s).1, 0) := by
  have htask : (repair_incomplete_task accounts n1 s).1.task = s.task :=
    repair_preserves_task accounts n1 s
  set s1 := (repair_incomplete_task accounts n1 s).1 with hs1
  show repair_incomplete_task accounts n2 s1 = (s1, 0)
  unfold repair_incomplete_task
  rw [if_neg (by rw [htask]; exact hrun)]
  dsimp only
  rcases hnomiss with hlen | hall
  · split
    · rfl
    · rw [Nat.sub_eq_zero_of_le (by simpa using hlen)]
      simp only [List.take_zero, List.enum_nil, List.map_nil, List.append_nil]
      rfl
  · have hmiss : (accounts.filter fun a =>
        !((s1.details.map fun d => d.account_code).contains a)).isEmpty = true := by
      rw [List.isEmpty_iff]
      rw [List.filter_eq_nil_iff]
      intro a ha
      have := hall a ha
      simp only [Bool.not_eq_true', Bool.not_eq_false]
      exact List.elem_eq_true_of_mem this
    rw [if_pos hmiss]

/-- C7, witness: the repair pair applied to a task already holding its only
account. -/
theorem c7_repair_idempotent_witness :
    repair_incomplete_task ["A"] 7 (repair_incomplete_task ["A"] 3 repairedState).1 =
      ((repair_incomplete_task ["A"] 3 repairedState).1, 0) :=
  c7_repair_idempotent ["A"] 3 7 repairedState (by decide) (Or.inr (by decide))

/-- C8: the per-task progress stream notifies an observer only on change —
consecutive observed (success_count, failed_count) pairs, starting from the
last observation, are always distinct — plus exactly one terminal event,
after which the stream ends, exactly when some poll observes COMPLETED or
FAILED; polls with unchanged counters and a non-terminal status produce no
event at all. -/
theorem c8_stream_change_detection (ls lf : Int) (polls : List TaskSnap) :
    List.Chain' (· ≠ ·) ((ls, lf) :: snapCounts (event_generator ls lf polls)) ∧
    ((∃ t ∈ polls, t.status = TaskStatus.completed ∨ t.status = TaskStatus.failed) →
       ∃ pre st su fa, event_generator ls lf polls = pre ++ [StreamEvent.terminal st su fa] ∧
         ∀ e ∈ pre, e.isTerminal = false) ∧
    ((∀ t ∈ polls, ¬(t.status = TaskStatus.completed ∨ t.status = TaskStatus.failed)) →
       ∀ e ∈ event_generator ls lf polls, e.isTerminal = false) ∧
    ((∀ t ∈ polls, t.success_count = ls ∧ t.failed_count = lf ∧
        t.status ≠ TaskStatus.completed ∧ t.status ≠ TaskStatus.failed) →
      event_generator ls lf polls = []) :=
  ⟨event_generator_chain polls ls lf,
   (event_generator_terminal_split polls ls lf).1,
   (event_generator_terminal_split polls ls lf).2,
   event_generator_no_change polls ls lf⟩

/-- C8, witness: a quiet poll (unchanged counters, non-terminal status)
yields no event. -/
theorem c8_stream_witness : event_generator 0 0 [quietPoll, quietPoll] = [] :=
  (c8_stream_change_detection 0 0 [quietPoll, quietPoll]).2.2.2 (by decide)

/-- C9: the manual single-item retry endpoint sets
failed_count to max(0, failed_count - 1): at failed_count 0 the count stays
0, and starting from any non-negative count it can never become negative
through this operation. -/
theorem c9_single_retry_clamps_failed_count (s : TaskState) (i : Nat) (d : TaskDetail)
    (hrun : s.task.status ≠ TaskStatus.running)
    (hfind : findDetail s.details i = some d)
    (hst : d.status = ResultStatus.failed) :
    (retry_task_detail s i).task.failed_count = max 0 (s.task.failed_count - 1) ∧
    (s.task.failed_count = 0 → (retry_task_detail s i).task.failed_count = 0) ∧
    0 ≤ (retry_task_detail s i).task.failed_count := by
  have hmax : (retry_task_detail s i).task.failed_count = max 0 (s.task.failed_count - 1) := by
    unfold retry_task_detail
    rw [if_neg hrun, hfind]
    simp only [if_pos (Or.inl hst), if_pos hst]
  refine ⟨hmax, ?_, ?_⟩
  · intro h0
    rw [hmax, h0]
    rfl
  · rw [hmax]
    exact le_max_left 0 _
/-- C9, witness: at stored failed_count 0 the endpoint leaves the count at 0. -/
theorem c9_single_retry_witness :
    (retry_task_detail zeroFailedCountState 0).task.failed_count = 0 :=
  (c9_single_retry_clamps_failed_count zeroFailedCountState 0 failedDetailWithArtifacts
    (by decide) (by decide) (by decide)).2.1 (by decide)

/-- C10: running a task that owns zero WorkItems writes RUNNING and then
immediately COMPLETED to the task row, invokes the executor for nothing (no
batch, no retry round), and leaves success_count, failed_count and
total_balance exactly as stored. -/
theorem c10_empty_task_run (accounts : List String) (exec : Nat → Nat → ExecBehavior)
    (cancelAt : Option Nat) (s : TaskState)
    (hempty : s.details = [])
    (hnc : isCancelled cancelAt 0 = false) :
    (runTaskCtx accounts exec cancelAt s).statusWrites =
      [TaskStatus.running, TaskStatus.completed] ∧
    (runTaskCtx accounts exec cancelAt s).execCalls = [] ∧
    (runTaskCtx accounts exec cancelAt s).task.status = TaskStatus.completed ∧
    (runTaskCtx accounts exec cancelAt s).task.success_count = s.task.success_count ∧
    (runTaskCtx accounts exec cancelAt s).task.failed_count = s.task.failed_count ∧
    (runTaskCtx accounts exec cancelAt s).task.total_balance = s.task.total_balance := by
  unfold runTaskCtx
  dsimp only
  rw [hnc]
  simp [writeTaskStatus, hempty]

/-- C10, witness at the concrete empty task. -/
theorem c10_empty_task_run_witness :
    (runTaskCtx ["A"] alwaysFail none emptyTask).statusWrites =
      [TaskStatus.running, TaskStatus.completed] ∧
    (runTaskCtx ["A"] alwaysFail none emptyTask).execCalls = [] ∧
    (runTaskCtx ["A"] alwaysFail none emptyTask).task.status = TaskStatus.completed ∧
    (runTaskCtx ["A"] alwaysFail none emptyTask).task.success_count =
      emptyTask.task.success_count ∧
    (runTaskCtx ["A"] alwaysFail none emptyTask).task.failed_count =
      emptyTask.task.failed_count ∧
    (runTaskCtx ["A"] alwaysFail none emptyTask).task.total_balance =
      emptyTask.task.total_balance :=
  c10_empty_task_run ["A"] alwaysFail none emptyTask rfl rfl


/-- Induction principle matching the BATCH_SIZE = 2 slicing of the batch
loops: a list property holding for the empty list, singletons, and preserved
when two elements are consed on. -/
theorem twoStepInduction {α : Type} {P : List α → Prop}
    (h0 : P []) (h1 : ∀ a, P [a]) (h2 : ∀ a b l, P l → P (a :: b :: l)) :
    ∀ l, P l := by
  have key : ∀ l, P l ∧ ∀ a, P (a :: l) := by
    intro l
    induction l with
    | nil => exact ⟨h0, h1⟩
    | cons b l ih => exact ⟨ih.2 b, fun a => h2 a b l ih.1⟩
  exact fun l => (key l).1

/-- Initial-pass result application on a resolvable account, phrased as a
single row rewrite plus counter bumps indexed by the result. -/
theorem applyResultInitial_found (accounts : List String) (ctx : RunCtx)
    (d : TaskDetail) (r : ExecResult)
    (hacc : d.account_code ∈ accounts) :
    applyResultInitial accounts ctx (d, r) =
      { ctx with
        details := updateById ctx.details d.id (applyFnInitial r),
        success_count := ctx.success_count + (if r.success then 1 else 0),
        failed_count := ctx.failed_count + (if r.success then 0 else 1),
        total_balance :=
          if r.success = true ∧ balTruthy r.balance = true
          then ctx.total_balance + r.balance.getD 0 else ctx.total_balance } := by
  unfold applyResultInitial applyFnInitial
  cases hs : r.success
  · simp [hacc, hs]
  · simp [hacc, hs]

/-- Dispatch of a two-item batch whose accounts both resolve: both rows are
flipped to RUNNING and both ids are queued in order. -/
theorem dispatchBatch_pair (accounts : List String) (ctx : RunCtx) (d1 d2 : TaskDetail)
    (h1 : d1.account_code ∈ accounts)
    (h2 : d2.account_code ∈ accounts) :
    dispatchBatch accounts ctx [d1, d2] =
      ({ ctx with details := updateById (updateById ctx.details d1.id fun cur =>
            updateDetailStatus cur ResultStatus.running none none none) d2.id fun cur =>
            updateDetailStatus cur ResultStatus.running none none none },
       [d1.id, d2.id]) := by
  simp [dispatchBatch, h1, h2]

/-- Dispatch of a one-item batch whose account resolves. -/
theorem dispatchBatch_single (accounts : List String) (ctx : RunCtx) (d : TaskDetail)
    (h1 : d.account_code ∈ accounts) :
    dispatchBatch accounts ctx [d] =
      ({ ctx with details := updateById ctx.details d.id fun cur =>
            updateDetailStatus cur ResultStatus.running none none none },
       [d.id]) := by
  simp [dispatchBatch, h1]


/-- No successes among no details. -/
theorem execSuccCount_nil (exec : Nat → Nat → ExecBehavior) : execSuccCount exec [] = 0 := rfl

/-- No failures among no details. -/
theorem execFailCount_nil (exec : Nat → Nat → ExecBehavior) : execFailCount exec [] = 0 := rfl

/-- Success count over a cons. -/
theorem execSuccCount_cons (exec : Nat → Nat → ExecBehavior) (d : TaskDetail)
    (ds : List TaskDetail) :
    execSuccCount exec (d :: ds) =
      (if (initialResult exec d).success then 1 else 0) + execSuccCount exec ds := by
  by_cases hs : (initialResult exec d).success
  · simp [execSuccCount, List.filter_cons, hs]
    ring
  · simp [execSuccCount, List.filter_cons, hs]

/-- Failure count over a cons. -/
theorem execFailCount_cons (exec : Nat → Nat → ExecBehavior) (d : TaskDetail)
    (ds : List TaskDetail) :
    execFailCount exec (d :: ds) =
      (if (initialResult exec d).success then 0 else 1) + execFailCount exec ds := by
  by_cases hs : (initialResult exec d).success
  · simp [execFailCount, List.filter_cons, hs]
  · simp [execFailCount, List.filter_cons, hs]
    ring

/-- One-item initial-pass batch on a coherent snapshot: the row ends at its
own executor outcome, other rows are untouched, the local counters and the
invocation log advance accordingly, and nothing else changes. -/
theorem initialBatchStep_single (accounts : List String) (exec : Nat → Nat → ExecBehavior)
    (ctx : RunCtx) (d : TaskDetail)
    (h1 : d.account_code ∈ accounts)
    (hf : findDetail ctx.details d.id = some d) :
    findDetail (initialBatchStep accounts exec ctx [d]).details d.id =
        some (applyExecOutcome d (initialResult exec d)) ∧
    (∀ j, j ≠ d.id →
      findDetail (initialBatchStep accounts exec ctx [d]).details j = findDetail ctx.details j) ∧
    (initialBatchStep accounts exec ctx [d]).success_count =
        ctx.success_count + execSuccCount exec [d] ∧
    (initialBatchStep accounts exec ctx [d]).failed_count =
        ctx.failed_count + execFailCount exec [d] ∧
    (initialBatchStep accounts exec ctx [d]).execCalls = ctx.execCalls ++ [(d.id, 0)] ∧
    (initialBatchStep accounts exec ctx [d]).chk = ctx.chk ∧
    (initialBatchStep accounts exec ctx [d]).statusWrites = ctx.statusWrites ∧
    (initialBatchStep accounts exec ctx [d]).retry_counts = ctx.retry_counts ∧
    (initialBatchStep accounts exec ctx [d]).task.status = ctx.task.status := by
  have hrunid : ∀ x : TaskDetail,
      (updateDetailStatus x ResultStatus.running none none none).id = x.id := fun _ => rfl
  have happid : ∀ r : ExecResult, ∀ x : TaskDetail, (applyFnInitial r x).id = x.id := by
    intro r x
    unfold applyFnInitial
    split
    · rfl
    · rfl
  have hstep : initialBatchStep accounts exec ctx [d] =
      writeTaskCounts
        { (applyResultInitial accounts
            ({ ctx with details := updateById ctx.details d.id fun cur =>
                updateDetailStatus cur ResultStatus.running none none none })
            (d, processSingleAccount (exec d.id 0))) with
          execCalls := (applyResultInitial accounts
            ({ ctx with details := updateById ctx.details d.id fun cur =>
                updateDetailStatus cur ResultStatus.running none none none })
            (d, processSingleAccount (exec d.id 0))).execCalls ++ [(d.id, 0)] } := by
    unfold initialBatchStep
    rw [dispatchBatch_single accounts ctx d h1]
    dsimp only
    simp only [List.isEmpty_cons, Bool.false_eq_true, if_false, List.map_cons, List.map_nil,
      List.zip_cons_cons, List.zip_nil_right, List.foldl_cons, List.foldl_nil]
  rw [hstep]
  rw [applyResultInitial_found accounts _ d _ h1]
  have hfind1 : findDetail (updateById ctx.details d.id fun cur =>
      updateDetailStatus cur ResultStatus.running none none none) d.id =
      some (updateDetailStatus d ResultStatus.running none none none) :=
    findDetail_updateById_self hrunid hf
  refine ⟨?_, ?_, ?_, ?_, ?_, ?_, ?_, ?_, ?_⟩
  · show findDetail (updateById _ d.id (applyFnInitial _)) d.id = _
    rw [findDetail_updateById_self (happid _) hfind1]
    rfl
  · intro j hj
    show findDetail (updateById _ d.id (applyFnInitial _)) j = _
    rw [findDetail_updateById_ne (happid _) hj, findDetail_updateById_ne hrunid hj]
  · show ctx.success_count + _ = _
    rw [execSuccCount_cons, execSuccCount_nil, add_zero]
    rfl
  · show ctx.failed_count + _ = _
    rw [execFailCount_cons, execFailCount_nil, add_zero]
    rfl
  · rfl
  · rfl
  · rfl
  · rfl
  · rfl


/-- Two-item initial-pass batch on coherent snapshots with distinct ids:
each row ends at its own executor outcome, independent of its sibling. -/
theorem initialBatchStep_pair (accounts : List String) (exec : Nat → Nat → ExecBehavior)
    (ctx : RunCtx) (d1 d2 : TaskDetail)
    (h1 : d1.account_code ∈ accounts)
    (h2 : d2.account_code ∈ accounts)
    (hne : d1.id ≠ d2.id)
    (hf1 : findDetail ctx.details d1.id = some d1)
    (hf2 : findDetail ctx.details d2.id = some d2) :
    findDetail (initialBatchStep accounts exec ctx [d1, d2]).details d1.id =
        some (applyExecOutcome d1 (initialResult exec d1)) ∧
    findDetail (initialBatchStep accounts exec ctx [d1, d2]).details d2.id =
        some (applyExecOutcome d2 (initialResult exec d2)) ∧
    (∀ j, j ≠ d1.id → j ≠ d2.id →
      findDetail (initialBatchStep accounts exec ctx [d1, d2]).details j =
        findDetail ctx.details j) ∧
    (initialBatchStep accounts exec ctx [d1, d2]).success_count =
        ctx.success_count + execSuccCount exec [d1, d2] ∧
    (initialBatchStep accounts exec ctx [d1, d2]).failed_count =
        ctx.failed_count + execFailCount exec [d1, d2] ∧
    (initialBatchStep accounts exec ctx [d1, d2]).execCalls =
        ctx.execCalls ++ [(d1.id, 0), (d2.id, 0)] ∧
    (initialBatchStep accounts exec ctx [d1, d2]).chk = ctx.chk ∧
    (initialBatchStep accounts exec ctx [d1, d2]).statusWrites = ctx.statusWrites ∧
    (initialBatchStep accounts exec ctx [d1, d2]).retry_counts = ctx.retry_counts ∧
    (initialBatchStep accounts exec ctx [d1, d2]).task.status = ctx.task.status := by
  have hrunid : ∀ x : TaskDetail,
      (updateDetailStatus x ResultStatus.running none none none).id = x.id := fun _ => rfl
  have happid : ∀ r : ExecResult, ∀ x : TaskDetail, (applyFnInitial r x).id = x.id := by
    intro r x
    unfold applyFnInitial
    split
    · rfl
    · rfl
  have hstep : initialBatchStep accounts exec ctx [d1, d2] =
      writeTaskCounts
        { (applyResultInitial accounts
            (applyResultInitial accounts
              ({ ctx with details := updateById (updateById ctx.details d1.id fun cur =>
                  updateDetailStatus cur ResultStatus.running none none none) d2.id fun cur =>
                  updateDetailStatus cur ResultStatus.running none none none })
              (d1, processSingleAccount (exec d1.id 0)))
            (d2, processSingleAccount (exec d2.id 0))) with
          execCalls := (applyResultInitial accounts
            (applyResultInitial accounts
              ({ ctx with details := updateById (updateById ctx.details d1.id fun cur =>
                  updateDetailStatus cur ResultStatus.running none none none) d2.id fun cur =>
                  updateDetailStatus cur ResultStatus.running none none none })
              (d1, processSingleAccount (exec d1.id 0)))
            (d2, processSingleAccount (exec d2.id 0))).execCalls ++ [(d1.id, 0), (d2.id, 0)] } := by
    unfold initialBatchStep
    rw [dispatchBatch_pair accounts ctx d1 d2 h1 h2]
    dsimp only
    simp only [List.isEmpty_cons, Bool.false_eq_true, if_false, List.map_cons, List.map_nil,
      List.zip_cons_cons, List.zip_nil_right, List.foldl_cons, List.foldl_nil]
  rw [hstep]
  rw [applyResultInitial_found accounts _ d1 _ h1]
  rw [applyResultInitial_found accounts _ d2 _ h2]
  have hfind1 : findDetail (updateById (updateById ctx.details d1.id fun cur =>
      updateDetailStatus cur ResultStatus.running none none none) d2.id fun cur =>
      updateDetailStatus cur ResultStatus.running none none none) d1.id =
      some (updateDetailStatus d1 ResultStatus.running none none none) := by
    rw [findDetail_updateById_ne hrunid hne]
    exact findDetail_updateById_self hrunid hf1
  have hfind2 : findDetail (updateById (updateById ctx.details d1.id fun cur =>
      updateDetailStatus cur ResultStatus.running none none none) d2.id fun cur =>
      updateDetailStatus cur ResultStatus.running none none none) d2.id =
      some (updateDetailStatus d2 ResultStatus.running none none none) := by
    rw [findDetail_updateById_self hrunid]
    rw [findDetail_updateById_ne hrunid (fun h => hne h.symm)]
    exact hf2
  refine ⟨?_, ?_, ?_, ?_, ?_, ?_, ?_, ?_, ?_, ?_⟩
  · show findDetail (updateById (updateById _ d1.id _) d2.id (applyFnInitial _)) d1.id = _
    rw [findDetail_updateById_ne (happid _) hne]
    rw [findDetail_updateById_self (happid _) hfind1]
    rfl
  · show findDetail (updateById (updateById _ d1.id _) d2.id (applyFnInitial _)) d2.id = _
    rw [findDetail_updateById_self (happid _) ?_]
    · rfl
    · rw [findDetail_updateById_ne (happid _) (fun h => hne h.symm)]
      exact hfind2
  · intro j hj1 hj2
    show findDetail (updateById (updateById _ d1.id _) d2.id (applyFnInitial _)) j = _
    rw [findDetail_updateById_ne (happid _) hj2, findDetail_updateById_ne (happid _) hj1,
      findDetail_updateById_ne hrunid hj2, findDetail_updateById_ne hrunid hj1]
  · show ctx.success_count + _ + _ = _
    rw [execSuccCount_cons, execSuccCount_cons, execSuccCount_nil, add_zero]
    rw [show initialResult exec d1 = processSingleAccount (exec d1.id 0) from rfl]
    rw [show initialResult exec d2 = processSingleAccount (exec d2.id 0) from rfl]
    ring
  · show ctx.failed_count + _ + _ = _
    rw [execFailCount_cons, execFailCount_cons, execFailCount_nil, add_zero]
    rw [show initialResult exec d1 = processSingleAccount (exec d1.id 0) from rfl]
    rw [show initialResult exec d2 = processSingleAccount (exec d2.id 0) from rfl]
    ring
  · rfl
  · rfl
  · rfl
  · rfl
  · rfl


/-- A run that is never cancelled sees the flag false at every check. -/
theorem isCancelled_none (k : Nat) : isCancelled none k = false := rfl

/-- Full characterisation of the initial batch loop when cancellation never
arrives: every queued item is dispatched (in order, two at a time) and ends
at the outcome of its own executor invocation; rows outside the queue, the
status-write log, the retry counters and the task status are untouched. -/
theorem initialLoop_none_spec (accounts : List String) (exec : Nat → Nat → ExecBehavior) :
    ∀ pending : List TaskDetail, ∀ ctx : RunCtx,
    (∀ d ∈ pending, findDetail ctx.details d.id = some d) →
    (∀ d ∈ pending, d.account_code ∈ accounts) →
    ((pending.map fun d => d.id).Nodup) →
    (∀ d ∈ pending, findDetail (initialLoop accounts exec none ctx pending).details d.id =
        some (applyExecOutcome d (initialResult exec d))) ∧
    (∀ j, (∀ d ∈ pending, d.id ≠ j) →
      findDetail (initialLoop accounts exec none ctx pending).details j =
        findDetail ctx.details j) ∧
    (initialLoop accounts exec none ctx pending).success_count =
        ctx.success_count + execSuccCount exec pending ∧
    (initialLoop accounts exec none ctx pending).failed_count =
        ctx.failed_count + execFailCount exec pending ∧
    (initialLoop accounts exec none ctx pending).execCalls =
        ctx.execCalls ++ pending.map (fun d => (d.id, 0)) ∧
    (initialLoop accounts exec none ctx pending).statusWrites = ctx.statusWrites ∧
    (initialLoop accounts exec none ctx pending).retry_counts = ctx.retry_counts ∧
    (initialLoop accounts exec none ctx pending).task.status = ctx.task.status := by
  refine twoStepInduction ?_ ?_ ?_
  · intro ctx _ _ _
    refine ⟨?_, ?_, ?_, ?_, ?_, rfl, rfl, rfl⟩
    · intro d hd
      exact absurd hd (List.not_mem_nil d)
    · intro j _
      rfl
    · rw [execSuccCount_nil, add_zero]
      rfl
    · rw [execFailCount_nil, add_zero]
      rfl
    · simp [initialLoop]
  · intro a ctx hco hacc _
    have ha : a.account_code ∈ accounts := hacc a (List.mem_singleton.mpr rfl)
    have hfa : findDetail ctx.details a.id = some a := hco a (List.mem_singleton.mpr rfl)
    have hred : initialLoop accounts exec none ctx [a] =
        initialBatchStep accounts exec { ctx with chk := ctx.chk + 1 } [a] := by
      rw [initialLoop, isCancelled_none]
      simp
    obtain ⟨hb1, hb2, hb3, hb4, hb5, hb6, hb7, hb8, hb9⟩ :=
      initialBatchStep_single accounts exec { ctx with chk := ctx.chk + 1 } a ha hfa
    rw [hred]
    refine ⟨?_, ?_, ?_, ?_, ?_, ?_, ?_, ?_⟩
    · intro d hd
      rw [List.mem_singleton] at hd
      subst hd
      exact hb1
    · intro j hj
      exact hb2 j (hj a (List.mem_singleton.mpr rfl)).symm
    · exact hb3
    · exact hb4
    · exact hb5
    · exact hb7
    · exact hb8
    · exact hb9
  · intro a b rest ih ctx hco hacc hnd
    have hmem_a : a ∈ a :: b :: rest := List.mem_cons_self a (b :: rest)
    have hmem_b : b ∈ a :: b :: rest := List.mem_cons_of_mem a (List.mem_cons_self b rest)
    have ha : a.account_code ∈ accounts := hacc a hmem_a
    have hb : b.account_code ∈ accounts := hacc b hmem_b
    have hfa : findDetail ctx.details a.id = some a := hco a hmem_a
    have hfb : findDetail ctx.details b.id = some b := hco b hmem_b
    simp only [List.map_cons, List.nodup_cons, List.mem_cons, List.mem_map] at hnd
    obtain ⟨hnd1, hnd2, hnd3⟩ := hnd
    push_neg at hnd1 hnd2
    have hab : a.id ≠ b.id := hnd1.1
    have ha_rest : ∀ d ∈ rest, d.id ≠ a.id := by
      intro d hd hcontra
      exact hnd1.2 d hd hcontra
    have hb_rest : ∀ d ∈ rest, d.id ≠ b.id := by
      intro d hd hcontra
      exact hnd2 d hd hcontra
    have hred : initialLoop accounts exec none ctx (a :: b :: rest) =
        initialLoop accounts exec none
          (initialBatchStep accounts exec { ctx with chk := ctx.chk + 1 } [a, b]) rest := by
      rw [initialLoop, isCancelled_none]
      simp
    obtain ⟨hp1, hp2, hp3, hp4, hp5, hp6, hp7, hp8, hp9, hp10⟩ :=
      initialBatchStep_pair accounts exec { ctx with chk := ctx.chk + 1 } a b ha hb hab hfa hfb
    have hco1 : ∀ d ∈ rest,
        findDetail (initialBatchStep accounts exec { ctx with chk := ctx.chk + 1 } [a, b]).details
          d.id = some d := by
      intro d hd
      rw [hp3 d.id (ha_rest d hd) (hb_rest d hd)]
      exact hco d (List.mem_cons_of_mem a (List.mem_cons_of_mem b hd))
    obtain ⟨hi1, hi2, hi3, hi4, hi5, hi6, hi7, hi8⟩ :=
      ih (initialBatchStep accounts exec { ctx with chk := ctx.chk + 1 } [a, b]) hco1
        (fun d hd => hacc d (List.mem_cons_of_mem a (List.mem_cons_of_mem b hd))) hnd3
    rw [hred]
    refine ⟨?_, ?_, ?_, ?_, ?_, ?_, ?_, ?_⟩
    · intro d hd
      rcases List.mem_cons.mp hd with h | hd2
      · subst h
        rw [hi2 d.id fun x hx => ha_rest x hx]
        exact hp1
      · rcases List.mem_cons.mp hd2 with h | hd3
        · subst h
          rw [hi2 d.id fun x hx => hb_rest x hx]
          exact hp2
        · exact hi1 d hd3
    · intro j hj
      rw [hi2 j fun d hd => hj d (List.mem_cons_of_mem a (List.mem_cons_of_mem b hd))]
      exact hp3 j (hj a hmem_a).symm (hj b hmem_b).symm
    · rw [hi3, hp4]
      rw [execSuccCount_cons, execSuccCount_cons, execSuccCount_cons, execSuccCount_cons,
        execSuccCount_nil]
      ring
    · rw [hi4, hp5]
      rw [execFailCount_cons, execFailCount_cons, execFailCount_cons, execFailCount_cons,
        execFailCount_nil]
      ring
    · rw [hi5, hp6]
      simp [List.append_assoc]
    · rw [hi6, hp8]
    · rw [hi7, hp9]
    · rw [hi8, hp10]


/-- In a table with pairwise distinct primary keys, looking up any row by
its own key finds that row. -/
theorem findDetail_self_of_nodup : ∀ details : List TaskDetail,
    ((details.map fun d => d.id).Nodup) →
    ∀ d ∈ details, findDetail details d.id = some d := by
  intro details
  induction details with
  | nil =>
    intro _ d hd
    exact absurd hd (List.not_mem_nil d)
  | cons x rest ih =>
    intro hnd d hd
    simp only [List.map_cons, List.nodup_cons, List.mem_map] at hnd
    push_neg at hnd
    rcases List.mem_cons.mp hd with h | h
    · subst h
      simp [findDetail]
    · have hxd : x.id ≠ d.id := fun hc => hnd.1 d h hc.symm
      rw [findDetail, if_neg hxd]
      exact ih hnd.2 d h

/-- Cancel-marking a coherent list of still-PENDING rows: each row becomes
FAILED with message "Task cancelled", failed_count grows by the number of
rows, and nothing else changes. -/
theorem cancelMark_spec : ∀ (remaining : List TaskDetail) (ctx : RunCtx),
    (∀ d ∈ remaining, findDetail ctx.details d.id = some d) →
    (∀ d ∈ remaining, d.status = ResultStatus.pending) →
    ((remaining.map fun d => d.id).Nodup) →
    (∀ d ∈ remaining, findDetail (cancelMark ctx remaining).details d.id =
        some (updateDetailStatus d ResultStatus.failed (some "Task cancelled") none none)) ∧
    (∀ j, (∀ d ∈ remaining, d.id ≠ j) →
      findDetail (cancelMark ctx remaining).details j = findDetail ctx.details j) ∧
    (cancelMark ctx remaining).failed_count = ctx.failed_count + remaining.length ∧
    (cancelMark ctx remaining).success_count = ctx.success_count ∧
    (cancelMark ctx remaining).execCalls = ctx.execCalls ∧
    (cancelMark ctx remaining).statusWrites = ctx.statusWrites ∧
    (cancelMark ctx remaining).retry_counts = ctx.retry_counts ∧
    (cancelMark ctx remaining).chk = ctx.chk ∧
    (cancelMark ctx remaining).task.status = ctx.task.status := by
  have hcanid : ∀ x : TaskDetail,
      ((fun y => updateDetailStatus y ResultStatus.failed (some "Task cancelled") none none)
        x).id = x.id := fun _ => rfl
  intro remaining
  induction remaining with
  | nil =>
    intro ctx _ _ _
    refine ⟨?_, ?_, ?_, rfl, rfl, rfl, rfl, rfl, rfl⟩
    · intro d hd
      exact absurd hd (List.not_mem_nil d)
    · intro j _
      rfl
    · simp [cancelMark]
  | cons a rest ih =>
    intro ctx hco hpend hnd
    have hfa : findDetail ctx.details a.id = some a := hco a (List.mem_cons_self a rest)
    have hpa : a.status = ResultStatus.pending := hpend a (List.mem_cons_self a rest)
    simp only [List.map_cons, List.nodup_cons, List.mem_map] at hnd
    push_neg at hnd
    have ha_rest : ∀ d ∈ rest, d.id ≠ a.id := fun d hd hc => hnd.1 d hd hc
    have hred : cancelMark ctx (a :: rest) =
        cancelMark { ctx with
          details := updateById ctx.details a.id fun x =>
            updateDetailStatus x ResultStatus.failed (some "Task cancelled") none none,
          failed_count := ctx.failed_count + 1 } rest := by
      unfold cancelMark
      rw [List.foldl_cons, hfa]
      dsimp only
      rw [if_pos hpa]
    set ctx1 : RunCtx := { ctx with
      details := updateById ctx.details a.id fun x =>
        updateDetailStatus x ResultStatus.failed (some "Task cancelled") none none,
      failed_count := ctx.failed_count + 1 } with hctx1
    have hco1 : ∀ d ∈ rest, findDetail ctx1.details d.id = some d := by
      intro d hd
      show findDetail (updateById ctx.details a.id _) d.id = some d
      rw [findDetail_updateById_ne hcanid (ha_rest d hd)]
      exact hco d (List.mem_cons_of_mem a hd)
    obtain ⟨hi1, hi2, hi3, hi4, hi5, hi6, hi7, hi8, hi9⟩ :=
      ih ctx1 hco1 (fun d hd => hpend d (List.mem_cons_of_mem a hd)) hnd.2
    rw [hred]
    refine ⟨?_, ?_, ?_, ?_, ?_, ?_, ?_, ?_, ?_⟩
    · intro d hd
      rcases List.mem_cons.mp hd with h | h
      · subst h
        rw [hi2 d.id (fun x hx => ha_rest x hx)]
        show findDetail (updateById ctx.details d.id _) d.id = _
        exact findDetail_updateById_self hcanid hfa
      · exact hi1 d h
    · intro j hj
      rw [hi2 j (fun d hd => hj d (List.mem_cons_of_mem a hd))]
      show findDetail (updateById ctx.details a.id _) j = _
      exact findDetail_updateById_ne hcanid (hj a (List.mem_cons_self a rest)).symm
    · rw [hi3]
      show ctx.failed_count + 1 + (rest.length : Int) = _
      simp only [List.length_cons]
      push_cast
      ring
    · exact hi4
    · exact hi5
    · exact hi6
    · exact hi7
    · exact hi8
    · exact hi9


/-- The flag is visible at any check at or after its arrival. -/
theorem isCancelled_some_true {n k : Nat} (h : n ≤ k) : isCancelled (some n) k = true := by
  simp [isCancelled, h]

/-- The flag is invisible strictly before its arrival. -/
theorem isCancelled_some_false {n k : Nat} (h : k < n) : isCancelled (some n) k = false := by
  simp [isCancelled]
  omega

/-- Full characterisation of the initial batch loop when the cancellation
flag arrives at check point n: with the loop entered at check point
ctx.chk, the first 2·(n − ctx.chk) queued items are dispatched and resolve
by their own executor outcomes, every remaining item is cancel-marked, the
counters and the invocation log match, and — whenever some item was
cancel-marked — the final check point has passed n, so cancellation stays
visible. -/
theorem initialLoop_cancel_spec (accounts : List String) (exec : Nat → Nat → ExecBehavior)
    (n : Nat) :
    ∀ pending : List TaskDetail, ∀ ctx : RunCtx,
    (∀ d ∈ pending, findDetail ctx.details d.id = some d) →
    (∀ d ∈ pending, d.account_code ∈ accounts) →
    (∀ d ∈ pending, d.status = ResultStatus.pending) →
    ((pending.map fun d => d.id).Nodup) →
    (∀ d ∈ pending.take (2 * (n - ctx.chk)),
        findDetail (initialLoop accounts exec (some n) ctx pending).details d.id =
          some (applyExecOutcome d (initialResult exec d))) ∧
    (∀ d ∈ pending.drop (2 * (n - ctx.chk)),
        findDetail (initialLoop accounts exec (some n) ctx pending).details d.id =
          some (updateDetailStatus d ResultStatus.failed (some "Task cancelled") none none)) ∧
    (∀ j, (∀ d ∈ pending, d.id ≠ j) →
      findDetail (initialLoop accounts exec (some n) ctx pending).details j =
        findDetail ctx.details j) ∧
    (initialLoop accounts exec (some n) ctx pending).success_count =
        ctx.success_count + execSuccCount exec (pending.take (2 * (n - ctx.chk))) ∧
    (initialLoop accounts exec (some n) ctx pending).failed_count =
        ctx.failed_count + execFailCount exec (pending.take (2 * (n - ctx.chk))) +
          ((pending.drop (2 * (n - ctx.chk))).length : Int) ∧
    (initialLoop accounts exec (some n) ctx pending).execCalls =
        ctx.execCalls ++ (pending.take (2 * (n - ctx.chk))).map (fun d => (d.id, 0)) ∧
    (initialLoop accounts exec (some n) ctx pending).statusWrites = ctx.statusWrites ∧
    (initialLoop accounts exec (some n) ctx pending).retry_counts = ctx.retry_counts ∧
    (initialLoop accounts exec (some n) ctx pending).task.status = ctx.task.status ∧
    (pending.drop (2 * (n - ctx.chk)) ≠ [] →
      n ≤ (initialLoop accounts exec (some n) ctx pending).chk) := by
  refine twoStepInduction ?_ ?_ ?_
  · intro ctx _ _ _ _
    refine ⟨?_, ?_, ?_, ?_, ?_, ?_, rfl, rfl, rfl, ?_⟩
    · intro d hd
      rw [List.take_nil] at hd
      exact absurd hd (List.not_mem_nil d)
    · intro d hd
      rw [List.drop_nil] at hd
      exact absurd hd (List.not_mem_nil d)
    · intro j _
      rfl
    · rw [List.take_nil, execSuccCount_nil, add_zero]
      rfl
    · rw [List.take_nil, List.drop_nil, execFailCount_nil]
      show (initialLoop accounts exec (some n) ctx []).failed_count = ctx.failed_count + 0 + 0
      show ctx.failed_count = ctx.failed_count + 0 + 0
      ring
    · rw [List.take_nil]
      simp [initialLoop]
    · intro hcon
      rw [List.drop_nil] at hcon
      exact absurd rfl hcon
  · intro a ctx hco hacc hpend hnd
    have ha : a.account_code ∈ accounts := hacc a (List.mem_singleton.mpr rfl)
    have hfa : findDetail ctx.details a.id = some a := hco a (List.mem_singleton.mpr rfl)
    by_cases hc : n ≤ ctx.chk
    · have hp0 : 2 * (n - ctx.chk) = 0 := by omega
      have hred : initialLoop accounts exec (some n) ctx [a] =
          cancelMark { ctx with chk := ctx.chk + 1 } [a] := by
        rw [initialLoop, isCancelled_some_true hc]
        simp
      obtain ⟨hm1, hm2, hm3, hm4, hm5, hm6, hm7, hm8, hm9⟩ :=
        cancelMark_spec [a] { ctx with chk := ctx.chk + 1 } hco hpend hnd
      rw [hred, hp0]
      refine ⟨?_, ?_, ?_, ?_, ?_, ?_, hm6, hm7, hm9, ?_⟩
      · intro d hd
        rw [List.take_zero] at hd
        exact absurd hd (List.not_mem_nil d)
      · intro d hd
        rw [List.drop_zero] at hd
        exact hm1 d hd
      · intro j hj
        exact hm2 j hj
      · rw [List.take_zero, execSuccCount_nil, add_zero]
        exact hm4
      · rw [List.take_zero, List.drop_zero, execFailCount_nil]
        rw [hm3]
        show _ = ctx.failed_count + 0 + _
        ring
      · rw [List.take_zero, List.map_nil, List.append_nil]
        exact hm5
      · intro _
        rw [hm8]
        show n ≤ ctx.chk + 1
        omega
    · have hp2 : 1 ≤ 2 * (n - ctx.chk) := by omega
      have htake : List.take (2 * (n - ctx.chk)) [a] = [a] :=
        List.take_of_length_le (by simpa using hp2)
      have hdropn : List.drop (2 * (n - ctx.chk)) [a] = [] :=
        List.drop_eq_nil_of_le (by simpa using hp2)
      have hred : initialLoop accounts exec (some n) ctx [a] =
          initialBatchStep accounts exec { ctx with chk := ctx.chk + 1 } [a] := by
        rw [initialLoop, isCancelled_some_false (by omega)]
        simp
      obtain ⟨hb1, hb2, hb3, hb4, hb5, hb6, hb7, hb8, hb9⟩ :=
        initialBatchStep_single accounts exec { ctx with chk := ctx.chk + 1 } a ha hfa
      rw [hred, htake, hdropn]
      refine ⟨?_, ?_, ?_, hb3, ?_, hb5, hb7, hb8, hb9, ?_⟩
      · intro d hd
        rw [List.mem_singleton] at hd
        subst hd
        exact hb1
      · intro d hd
        exact absurd hd (List.not_mem_nil d)
      · intro j hj
        exact hb2 j (hj a (List.mem_singleton.mpr rfl)).symm
      · rw [hb4]
        simp
      · intro hcon
        exact absurd rfl hcon
  · intro a b rest ih ctx hco hacc hpend hnd
    have hmem_a : a ∈ a :: b :: rest := List.mem_cons_self a (b :: rest)
    have hmem_b : b ∈ a :: b :: rest := List.mem_cons_of_mem a (List.mem_cons_self b rest)
    have ha : a.account_code ∈ accounts := hacc a hmem_a
    have hb : b.account_code ∈ accounts := hacc b hmem_b
    have hfa : findDetail ctx.details a.id = some a := hco a hmem_a
    have hfb : findDetail ctx.details b.id = some b := hco b hmem_b
    have hndfull := hnd
    simp only [List.map_cons, List.nodup_cons, List.mem_cons, List.mem_map] at hnd
    obtain ⟨hnd1, hnd2, hnd3⟩ := hnd
    push_neg at hnd1 hnd2
    have hab : a.id ≠ b.id := hnd1.1
    have ha_rest : ∀ d ∈ rest, d.id ≠ a.id := fun d hd hc => hnd1.2 d hd hc
    have hb_rest : ∀ d ∈ rest, d.id ≠ b.id := fun d hd hc => hnd2 d hd hc
    by_cases hc : n ≤ ctx.chk
    · have hp0 : 2 * (n - ctx.chk) = 0 := by omega
      have hred : initialLoop accounts exec (some n) ctx (a :: b :: rest) =
          cancelMark { ctx with chk := ctx.chk + 1 } (a :: b :: rest) := by
        rw [initialLoop, isCancelled_some_true hc]
        simp
      obtain ⟨hm1, hm2, hm3, hm4, hm5, hm6, hm7, hm8, hm9⟩ :=
        cancelMark_spec (a :: b :: rest) { ctx with chk := ctx.chk + 1 } hco hpend hndfull
      rw [hred, hp0]
      refine ⟨?_, ?_, ?_, ?_, ?_, ?_, hm6, hm7, hm9, ?_⟩
      · intro d hd
        rw [List.take_zero] at hd
        exact absurd hd (List.not_mem_nil d)
      · intro d hd
        rw [List.drop_zero] at hd
        exact hm1 d hd
      · intro j hj
        exact hm2 j hj
      · rw [List.take_zero, execSuccCount_nil, add_zero]
        exact hm4
      · rw [List.take_zero, List.drop_zero, execFailCount_nil]
        rw [hm3]
        show _ = ctx.failed_count + 0 + _
        ring
      · rw [List.take_zero, List.map_nil, List.append_nil]
        exact hm5
      · intro _
        rw [hm8]
        show n ≤ ctx.chk + 1
        omega
    · have harith : 2 * (n - ctx.chk) = 2 * (n - (ctx.chk + 1)) + 2 := by omega
      have hred : initialLoop accounts exec (some n) ctx (a :: b :: rest) =
          initialLoop accounts exec (some n)
            (initialBatchStep accounts exec { ctx with chk := ctx.chk + 1 } [a, b]) rest := by
        rw [initialLoop, isCancelled_some_false (by omega)]
        simp
      obtain ⟨hp1, hp2, hp3, hp4, hp5, hp6, hp7, hp8, hp9, hp10⟩ :=
        initialBatchStep_pair accounts exec { ctx with chk := ctx.chk + 1 } a b ha hb hab hfa hfb
      have hco1 : ∀ d ∈ rest,
          findDetail (initialBatchStep accounts exec { ctx with chk := ctx.chk + 1 }
            [a, b]).details d.id = some d := by
        intro d hd
        rw [hp3 d.id (ha_rest d hd) (hb_rest d hd)]
        exact hco d (List.mem_cons_of_mem a (List.mem_cons_of_mem b hd))
      have hchk1 : (initialBatchStep accounts exec { ctx with chk := ctx.chk + 1 }
          [a, b]).chk = ctx.chk + 1 := hp7
      obtain ⟨hi1, hi2, hi3, hi4, hi5, hi6, hi7, hi8, hi9, hi10⟩ :=
        ih (initialBatchStep accounts exec { ctx with chk := ctx.chk + 1 } [a, b]) hco1
          (fun d hd => hacc d (List.mem_cons_of_mem a (List.mem_cons_of_mem b hd)))
          (fun d hd => hpend d (List.mem_cons_of_mem a (List.mem_cons_of_mem b hd))) hnd3
      rw [hchk1] at hi1 hi2 hi4 hi5 hi6 hi10
      rw [hred, harith]
      have htake2 : (a :: b :: rest).take (2 * (n - (ctx.chk + 1)) + 2) =
          a :: b :: rest.take (2 * (n - (ctx.chk + 1))) := by
        rw [show 2 * (n - (ctx.chk + 1)) + 2 = (2 * (n - (ctx.chk + 1)) + 1) + 1 from rfl]
        rw [List.take_succ_cons, List.take_succ_cons]
      have hdrop2 : (a :: b :: rest).drop (2 * (n - (ctx.chk + 1)) + 2) =
          rest.drop (2 * (n - (ctx.chk + 1))) := by
        rw [show 2 * (n - (ctx.chk + 1)) + 2 = (2 * (n - (ctx.chk + 1)) + 1) + 1 from rfl]
        rw [List.drop_succ_cons, List.drop_succ_cons]
      rw [htake2, hdrop2]
      refine ⟨?_, ?_, ?_, ?_, ?_, ?_, ?_, ?_, ?_, ?_⟩
      · intro d hd
        rcases List.mem_cons.mp hd with h | hd2
        · subst h
          rw [hi3 d.id fun x hx => ha_rest x hx]
          exact hp1
        · rcases List.mem_cons.mp hd2 with h | hd3
          · subst h
            rw [hi3 d.id fun x hx => hb_rest x hx]
            exact hp2
          · exact hi1 d hd3
      · intro d hd
        exact hi2 d hd
      · intro j hj
        rw [hi3 j fun d hd => hj d (List.mem_cons_of_mem a (List.mem_cons_of_mem b hd))]
        exact hp3 j (hj a hmem_a).symm (hj b hmem_b).symm
      · rw [hi4, hp4]
        rw [execSuccCount_cons, execSuccCount_cons, execSuccCount_cons, execSuccCount_cons,
          execSuccCount_nil]
        ring
      · rw [hi5, hp5]
        rw [execFailCount_cons, execFailCount_cons, execFailCount_cons, execFailCount_cons,
          execFailCount_nil]
        ring
      · rw [hi6, hp6]
        simp [List.append_assoc]
      · rw [hi7, hp8]
      · rw [hi8, hp9]
      · rw [hi9, hp10]
      · intro hcon
        exact hi10 hcon


/-- A retry batch loop entered with the cancellation flag visible breaks at
its first boundary, consuming one check point and running nothing. -/
theorem retryLoop_cancelled (accounts : List String) (exec : Nat → Nat → ExecBehavior)
    (n round : Nat) (ctx : RunCtx) (cands : List TaskDetail)
    (hcs : cands ≠ []) (hcan : isCancelled (some n) ctx.chk = true) :
    retryLoop accounts exec (some n) round ctx cands = { ctx with chk := ctx.chk + 1 } := by
  match cands with
  | [] => exact absurd rfl hcs
  | [d] =>
    rw [retryLoop, hcan]
    simp
  | d1 :: d2 :: rest =>
    rw [retryLoop, hcan]
    simp

/-- The whole Retry Coordinator, entered with the cancellation flag
visible, changes nothing but the check-point counter: no retry batch is
dispatched. -/
theorem retryPhase_cancelled (accounts : List String) (exec : Nat → Nat → ExecBehavior)
    (n : Nat) :
    ∀ (rounds roundIdx : Nat) (ctx : RunCtx),
    isCancelled (some n) ctx.chk = true →
    ∃ k, ctx.chk ≤ k ∧
      retryPhase accounts exec (some n) rounds roundIdx ctx = { ctx with chk := k } := by
  intro rounds
  induction rounds with
  | zero =>
    intro roundIdx ctx _
    exact ⟨ctx.chk, le_refl _, rfl⟩
  | succ m ih =>
    intro roundIdx ctx hcan
    rw [retryPhase]
    by_cases hempty : ((ctx.details.filter fun d => d.status == ResultStatus.failed).filter
        fun d => decide (rcGet ctx.retry_counts d.id < MAX_AUTO_RETRIES)).isEmpty
    · rw [if_pos hempty]
      exact ⟨ctx.chk, le_refl _, rfl⟩
    · rw [if_neg hempty]
      have hne : ((ctx.details.filter fun d => d.status == ResultStatus.failed).filter
          fun d => decide (rcGet ctx.retry_counts d.id < MAX_AUTO_RETRIES)) ≠ [] := by
        intro hcon
        rw [hcon] at hempty
        exact hempty rfl
      rw [retryLoop_cancelled accounts exec n roundIdx ctx _ hne hcan]
      have hcan2 : isCancelled (some n) ({ ctx with chk := ctx.chk + 1 } : RunCtx).chk = true := by
        show isCancelled (some n) (ctx.chk + 1) = true
        simp only [isCancelled, decide_eq_true_eq] at hcan ⊢
        omega
      obtain ⟨k, hk, heq⟩ := ih (roundIdx + 1) { ctx with chk := ctx.chk + 1 } hcan2
      refine ⟨k, ?_, ?_⟩
      · have : ctx.chk + 1 ≤ k := hk
        omega
      · rw [heq]

/-- The pre-pass fold over all-PENDING details only accumulates the work
queue. -/
theorem prePass_go : ∀ (details : List TaskDetail) (su fa tb : Int) (pend : List TaskDetail),
    (∀ d ∈ details, d.status = ResultStatus.pending) →
    List.foldl prePassStep (su, fa, tb, pend) details = (su, fa, tb, pend ++ details) := by
  intro details
  induction details with
  | nil =>
    intro su fa tb pend _
    simp
  | cons d rest ih =>
    intro su fa tb pend hall
    have hd : d.status = ResultStatus.pending := hall d (List.mem_cons_self d rest)
    rw [List.foldl_cons]
    have hstep : prePassStep (su, fa, tb, pend) d = (su, fa, tb, pend ++ [d]) := by
      unfold prePassStep
      simp [hd]
    rw [hstep, ih su fa tb (pend ++ [d]) (fun x hx => hall x (List.mem_cons_of_mem d hx))]
    simp

/-- On an all-PENDING task the pre-pass counts nothing and queues every
detail in order. -/
theorem prePass_all_pending (details : List TaskDetail)
    (hall : ∀ d ∈ details, d.status = ResultStatus.pending) :
    prePass details = (0, 0, 0, details) := by
  unfold prePass
  rw [prePass_go details 0 0 0 [] hall]
  simp


/-- A dispatched item always resolves to SUCCESS or FAILED according to its
own executor outcome. -/
theorem applyExecOutcome_status (d : TaskDetail) (r : ExecResult) :
    (applyExecOutcome d r).status =
      if r.success then ResultStatus.success else ResultStatus.failed := by
  unfold applyExecOutcome applyFnInitial
  split
  · rfl
  · rfl

/-- Status writes do not touch the detail table. -/
theorem writeTaskStatus_details (ctx : RunCtx) (st : TaskStatus) :
    (writeTaskStatus ctx st).details = ctx.details := rfl

/-- Counter writes do not touch the detail table. -/
theorem writeTaskCounts_details (ctx : RunCtx) :
    (writeTaskCounts ctx).details = ctx.details := rfl

/-- Status writes do not invoke the executor. -/
theorem writeTaskStatus_execCalls (ctx : RunCtx) (st : TaskStatus) :
    (writeTaskStatus ctx st).execCalls = ctx.execCalls := rfl

/-- Counter writes do not invoke the executor. -/
theorem writeTaskCounts_execCalls (ctx : RunCtx) :
    (writeTaskCounts ctx).execCalls = ctx.execCalls := rfl

/-- Status writes keep the local failed counter. -/
theorem writeTaskStatus_failed_count (ctx : RunCtx) (st : TaskStatus) :
    (writeTaskStatus ctx st).failed_count = ctx.failed_count := rfl

/-- After a counter write the task row carries the local failed counter. -/
theorem writeTaskCounts_task_failed (ctx : RunCtx) :
    (writeTaskCounts ctx).task.failed_count = ctx.failed_count := rfl

/-- C6: when cancel_task flags the task while a run is mid-batch — the flag
becoming visible at batch check point n ≥ 1, with undispatched PENDING
items remaining — the next batch boundary marks every still-PENDING item
FAILED with message "Task cancelled", incrementing failed_count once per
item on top of the executor failures of the dispatched prefix; the
2·(n−1) items of the batches dispatched before the flag was seen still
resolve to SUCCESS or FAILED according to their own executor outcomes; and
no further batch is started — the executor ran exactly for the dispatched
prefix and the retry coordinator dispatches nothing. -/
theorem c6_cancellation_at_batch_boundary
    (accounts : List String) (exec : Nat → Nat → ExecBehavior) (s : TaskState) (n : Nat)
    (hn : 1 ≤ n)
    (hnd : (s.details.map fun d => d.id).Nodup)
    (hacc : ∀ d ∈ s.details, d.account_code ∈ accounts)
    (hpend : ∀ d ∈ s.details, d.status = ResultStatus.pending)
    (hmid : 2 * (n - 1) < s.details.length) :
    (∀ d ∈ s.details.take (2 * (n - 1)),
        findDetail (runTask accounts exec (some n) s).details d.id =
          some (applyExecOutcome d (initialResult exec d))) ∧
    (∀ d ∈ s.details.drop (2 * (n - 1)),
        findDetail (runTask accounts exec (some n) s).details d.id =
          some (updateDetailStatus d ResultStatus.failed (some "Task cancelled") none none)) ∧
    (runTask accounts exec (some n) s).task.failed_count =
        execFailCount exec (s.details.take (2 * (n - 1))) +
          ((s.details.drop (2 * (n - 1))).length : Int) ∧
    (runTaskCtx accounts exec (some n) s).execCalls =
        (s.details.take (2 * (n - 1))).map fun d => (d.id, 0) := by
  have hne : s.details ≠ [] := by
    intro hcon
    rw [hcon] at hmid
    simp at hmid
  have h0 : isCancelled (some n) 0 = false := isCancelled_some_false (by omega)
  have hemp : s.details.isEmpty = false := by
    cases hd : s.details with
    | nil => exact absurd hd hne
    | cons x xs => rfl
  have hrun : runTaskCtx accounts exec (some n) s =
      writeTaskCounts (writeTaskStatus
        (retryPhase accounts exec (some n) MAX_AUTO_RETRIES 1
          (initialLoop accounts exec (some n) (startRunCtx s) s.details))
        (if isCancelled (some n)
            (retryPhase accounts exec (some n) MAX_AUTO_RETRIES 1
              (initialLoop accounts exec (some n) (startRunCtx s) s.details)).chk = true
         then TaskStatus.failed else TaskStatus.completed)) := by
    unfold runTaskCtx
    dsimp only
    rw [h0, hemp, prePass_all_pending s.details hpend]
    rfl
  have hchk1 : (startRunCtx s).chk = 1 := rfl
  have hdet1 : (startRunCtx s).details = s.details := rfl
  have hco : ∀ d ∈ s.details, findDetail (startRunCtx s).details d.id = some d := by
    rw [hdet1]
    exact findDetail_self_of_nodup s.details hnd
  obtain ⟨hl1, hl2, hl3, hl4, hl5, hl6, hl7, hl8, hl9, hl10⟩ :=
    initialLoop_cancel_spec accounts exec n s.details (startRunCtx s) hco hacc hpend hnd
  rw [hchk1] at hl1 hl2 hl5 hl6 hl10
  have hdropne : s.details.drop (2 * (n - 1)) ≠ [] := by
    intro hcon
    have hlen : s.details.length ≤ 2 * (n - 1) := List.drop_eq_nil_iff.mp hcon
    omega
  have hcanafter : isCancelled (some n)
      (initialLoop accounts exec (some n) (startRunCtx s) s.details).chk = true :=
    isCancelled_some_true (hl10 hdropne)
  obtain ⟨k, hk, hretry⟩ :=
    retryPhase_cancelled accounts exec n MAX_AUTO_RETRIES 1
      (initialLoop accounts exec (some n) (startRunCtx s) s.details) hcanafter
  refine ⟨?_, ?_, ?_, ?_⟩
  · intro d hd
    show findDetail (runTaskCtx accounts exec (some n) s).details d.id = _
    rw [hrun, hretry, writeTaskCounts_details, writeTaskStatus_details]
    exact hl1 d hd
  · intro d hd
    show findDetail (runTaskCtx accounts exec (some n) s).details d.id = _
    rw [hrun, hretry, writeTaskCounts_details, writeTaskStatus_details]
    exact hl2 d hd
  · show (runTaskCtx accounts exec (some n) s).task.failed_count = _
    rw [hrun, hretry, writeTaskCounts_task_failed, writeTaskStatus_failed_count]
    show (initialLoop accounts exec (some n) (startRunCtx s) s.details).failed_count = _
    rw [hl5]
    show (startRunCtx s).failed_count + _ + _ = _
    show (0 : Int) + _ + _ = _
    ring
  · rw [hrun, hretry, writeTaskCounts_execCalls, writeTaskStatus_execCalls]
    show (initialLoop accounts exec (some n) (startRunCtx s) s.details).execCalls = _
    rw [hl6]
    show (startRunCtx s).execCalls ++ _ = _
    show [] ++ _ = _
    rw [List.nil_append]


/-- C5, amended: in a batch run whose items all carry resolvable account
references, an executor invocation that raises never propagates — the
exception is converted into a failure dict, the raising item ends the
initial pass FAILED with a message carrying the exception text, every item
(including the siblings of the raiser) ends at the outcome of its own
executor invocation, the loop dispatches every batch (the invocation log
covers the whole queue), and no task status write is smuggled in. -/
theorem c5_amended_exception_isolated (accounts : List String)
    (exec : Nat → Nat → ExecBehavior) (ctx : RunCtx) (pending : List TaskDetail)
    (d : TaskDetail) (msg : String)
    (hco : ∀ x ∈ pending, findDetail ctx.details x.id = some x)
    (hacc : ∀ x ∈ pending, x.account_code ∈ accounts)
    (hnd : (pending.map fun x => x.id).Nodup)
    (hd : d ∈ pending)
    (hraise : exec d.id 0 = ExecBehavior.raises msg) :
    findDetail (initialLoop accounts exec none ctx pending).details d.id =
      some { d with status := ResultStatus.failed, result_message := some ("Exception during processing: " ++ msg) } ∧
    (∀ x ∈ pending,
      findDetail (initialLoop accounts exec none ctx pending).details x.id =
        some (applyExecOutcome x (initialResult exec x))) ∧
    (initialLoop accounts exec none ctx pending).execCalls =
        ctx.execCalls ++ pending.map (fun x => (x.id, 0)) ∧
    (initialLoop accounts exec none ctx pending).statusWrites = ctx.statusWrites := by
  obtain ⟨hn1, hn2, hn3, hn4, hn5, hn6, hn7, hn8⟩ :=
    initialLoop_none_spec accounts exec pending ctx hco hacc hnd
  refine ⟨?_, hn1, hn5, hn6⟩
  rw [hn1 d hd]
  unfold initialResult
  rw [hraise]
  rfl

/-- C5, witness for the amended theorem: with both accounts resolvable, the
raising second item ends FAILED with the exception text. -/
theorem c5_amended_witness :
    findDetail (initialLoop ["A", "B"] raisingSecond none (startRunCtx danglingFirstState)
        danglingFirstState.details).details 1 =
      some { detailB with status := ResultStatus.failed, result_message := some ("Exception during processing: " ++ "boom") } := by
  have h := (c5_amended_exception_isolated ["A", "B"] raisingSecond
    (startRunCtx danglingFirstState) danglingFirstState.details detailB "boom"
    (by decide) (by decide) (by decide) (by decide) rfl).1
  exact h

/-- C6, witness: on a three-account task cancelled at check point 2, the
third item is cancel-marked. -/
theorem c6_cancellation_witness :
    findDetail (runTask ["A", "B", "C"] alwaysFail (some 2)
        (create_task ["A", "B", "C"])).details 2 =
      some (updateDetailStatus thirdPendingDetail ResultStatus.failed
        (some "Task cancelled") none none) := by
  have h := (c6_cancellation_at_batch_boundary ["A", "B", "C"] alwaysFail
    (create_task ["A", "B", "C"]) 2 (by decide) (by decide) (by decide) (by decide)
    (by decide)).2.1
  exact h thirdPendingDetail (by decide)

end DSJ
